import Mathlib

/-!
# Verification of the Pascal VOC annotator

A shallow embedding of the annotation codec
(`datasets/generate_pascalvoc_annotations.py`) and the annotator session
(`pascalvoc_annotator.py`), with theorems checking the specification's
claims against the embedded code.

The XML library (`lxml.etree` / `xml.etree.ElementTree`) is modelled at the
element-tree level: an element is a tag, a text payload and a list of child
elements.  Python's `str`/`int` conversions on element text are modelled by
`toString` and `String.toInt?`; the first section proves the decimal
round-trip `String.toInt? (toString n) = some n` they rely on.
-/

namespace PascalVOC

/-! ## Decimal numeral round-trip -/

/-- The digit-accumulation step used by `String.toNat?`. -/
def digitStep (n : Nat) (c : Char) : Nat := n * 10 + (c.toNat - '0'.toNat)

/-- The list of decimal digit characters of `n`, most significant first.
Structural counterpart of `Nat.toDigitsCore` at base 10. -/
def natDigits (n : Nat) : List Char :=
  if _h : n < 10 then [Nat.digitChar n]
  else natDigits (n / 10) ++ [Nat.digitChar (n % 10)]
decreasing_by exact Nat.div_lt_self (by omega) (by omega)

/-! ## Element trees (model of the XML library) -/

/-- An XML element: a tag, a text payload and a list of child elements. -/
inductive XmlElem where
  | mk (tag : String) (text : String) (children : List XmlElem)

def XmlElem.tag : XmlElem → String
  | .mk t _ _ => t

def XmlElem.text : XmlElem → String
  | .mk _ s _ => s

def XmlElem.children : XmlElem → List XmlElem
  | .mk _ _ cs => cs

/-- ElementTree `find`: the first direct child with the given tag, if any. -/
def XmlElem.findChild (e : XmlElem) (t : String) : Option XmlElem :=
  e.children.find? (fun c => c.tag == t)

/-- ElementTree `findall`: all direct children with the given tag, in document order. -/
def XmlElem.findAll (e : XmlElem) (t : String) : List XmlElem :=
  e.children.filter (fun c => c.tag == t)

/-! ## Data model -/

/-- A bounding box `(xmin, ymin, xmax, ymax)` in pixel coordinates. -/
abbrev BBox := Int × Int × Int × Int

/-- Pixel dimensions of an image (`img.shape` is `(height, width, depth)`); the
pixel contents themselves are irrelevant to the annotator logic. -/
structure Image where
  height : Nat
  width : Nat
  depth : Nat
deriving DecidableEq

/-- An on-disk annotation file: either a well-formed element tree, or malformed
bytes which the XML parser rejects. -/
inductive AnnFile where
  | malformed
  | tree (root : XmlElem)

/-- Contents of the annotation directory `Annotations/`, as an association list
from file path to file contents.  Files are keyed by the path of the image they
annotate: the naming scheme image path ↦ `Annotations/<stem>.xml` is injective for
the directory layouts in scope, so this keying loses no information. -/
abbrev FS := List (String × AnnFile)

/-- Association-list lookup with string keys (Python dict access). -/
def alookup {β : Type} : List (String × β) → String → Option β
  | [], _ => none
  | (k, v) :: rest, q => if k = q then some v else alookup rest q

/-- Association-list update (Python dict assignment: replace in place, else append). -/
def aset {β : Type} : List (String × β) → String → β → List (String × β)
  | [], q, v => [(q, v)]
  | (k, w) :: rest, q, v => if k = q then (q, v) :: rest else (k, w) :: aset rest q v

/-- Association-list deletion (a guarded Python `del d[k]`: no-op when absent). -/
def aerase {β : Type} : List (String × β) → String → List (String × β)
  | [], _ => []
  | (k, w) :: rest, q => if k = q then rest else (k, w) :: aerase rest q

/-! ## Annotation codec (`datasets/generate_pascalvoc_annotations.py`) -/

def ROOT_NAME : String := "annotation"

def OBJECT_ELEMENT_NAME : String := "object"

/-- Model of `_generate_xml_element_with_text`: an element whose text is `str(text)`. -/
def _generate_xml_element_with_text {α : Type} [ToString α] (name : String) (text : α) :
    XmlElem :=
  .mk name (toString text) []

/-- Model of `_generate_object_annotation`: one Pascal VOC object block. -/
def _generate_object_annotation (obj_name : String) (bbox : BBox) : XmlElem :=
  .mk OBJECT_ELEMENT_NAME "" [
    _generate_xml_element_with_text "name" obj_name,
    _generate_xml_element_with_text "truncated" (0 : Nat),
    _generate_xml_element_with_text "difficult" (0 : Nat),
    .mk "bndbox" "" [
      _generate_xml_element_with_text "xmin" bbox.1,
      _generate_xml_element_with_text "ymin" bbox.2.1,
      _generate_xml_element_with_text "xmax" bbox.2.2.1,
      _generate_xml_element_with_text "ymax" bbox.2.2.2]]

/-- The element tree built by `generate_pascalvoc_annotation_from_image` before it
writes: a size block followed by one object block per (label, box) pair, in input
order (pairing is positional, via `zip`). -/
def annotation_root (img : Image) (obj_names : List String) (bboxes : List BBox) :
    XmlElem :=
  .mk ROOT_NAME ""
    (.mk "size" "" [
        _generate_xml_element_with_text "width" img.width,
        _generate_xml_element_with_text "height" img.height,
        _generate_xml_element_with_text "depth" img.depth] ::
      (obj_names.zip bboxes).map (fun p => _generate_object_annotation p.1 p.2))

inductive CodecError where
  | alreadyExists (path : String)

/-- Model of `generate_pascalvoc_annotation_from_image` (lines 45-79): build the
annotation tree for `img`, fail if `overwrite` is false and `file_path` already
exists, otherwise (over)write the serialized tree at `file_path`.  The pair returned
is the error raised (if any) together with the resulting directory contents; on
failure the file system is returned untouched, mirroring the code's existence check
coming before the file is opened for writing. -/
def generate_pascalvoc_annotation_from_image (img : Image) (obj_names : List String)
    (bboxes : List BBox) (file_path : String) (overwrite : Bool) (fs : FS) :
    Option CodecError × FS :=
  let root := annotation_root img obj_names bboxes
  if overwrite = false ∧ (alookup fs file_path).isSome then
    (some (.alreadyExists file_path), fs)
  else
    (none, aset fs file_path (.tree root))

/-- Model of `generate_pascvalvoc_annotation_from_image_file` (lines 81-113): read
the image at `img_path` — `cv2.imread` may fail, which `images` models by
returning `none`, and the `assert img is not None` at line 101 then aborts,
modelled as the `none` result — otherwise write its annotation.  Directory
creation is a no-op in the model and the annotation file is keyed by the image
path. -/
def generate_pascvalvoc_annotation_from_image_file (images : String → Option Image)
    (img_path : String) (obj_names : List String) (bboxes : List BBox)
    (overwrite : Bool) (fs : FS) : Option (Option CodecError × FS) :=
  match images img_path with
  | none => none
  | some img =>
    some (generate_pascalvoc_annotation_from_image img obj_names bboxes
      img_path overwrite fs)

/-! ## Annotation parsing (`_parse_pascalvoc_annoation`, lines 28-41) -/

inductive ParseError where
  | malformedFile
  | missingField (tag : String)
  | nonIntegerField (tag : String)

/-- Extraction of one integer coordinate, `int(parent.find(tag).text)`: a missing
child raises (as AttributeError) and non-integer text raises (as ValueError); the
spec groups both under parse failure. -/
def intField (parent : XmlElem) (tag : String) : Except ParseError Int :=
  match parent.findChild tag with
  | none => .error (.missingField tag)
  | some e =>
    match e.text.toInt? with
    | none => .error (.nonIntegerField tag)
    | some v => .ok v

/-- One iteration of the loop in `_parse_pascalvoc_annoation`: the object's label
text (`obj.find('name').text`, extracted first) and its four integer coordinates. -/
def parseObject (obj : XmlElem) : Except ParseError (BBox × String) :=
  match obj.findChild "name" with
  | none => .error (.missingField "name")
  | some nameEl =>
    match obj.findChild "bndbox" with
    | none => .error (.missingField "bndbox")
    | some bb =>
      match intField bb "xmin" with
      | .error e => .error e
      | .ok xmin =>
        match intField bb "ymin" with
        | .error e => .error e
        | .ok ymin =>
          match intField bb "xmax" with
          | .error e => .error e
          | .ok xmax =>
            match intField bb "ymax" with
            | .error e => .error e
            | .ok ymax => .ok ((xmin, ymin, xmax, ymax), nameEl.text)

/-- The loop of `_parse_pascalvoc_annoation` over `root.findall('object')`,
accumulating the coordinate and label lists in document order; the first failing
object aborts the parse. -/
def parseObjects : List XmlElem → Except ParseError (List BBox × List String)
  | [] => .ok ([], [])
  | obj :: rest =>
    match parseObject obj with
    | .error e => .error e
    | .ok hd =>
      match parseObjects rest with
      | .error e => .error e
      | .ok (bs, ls) => .ok (hd.1 :: bs, hd.2 :: ls)

/-- Model of `_parse_pascalvoc_annoation` (lines 28-41): parse the file and return
the bounding boxes and labels of its object blocks, order-aligned. -/
def _parse_pascalvoc_annoation (file : AnnFile) :
    Except ParseError (List BBox × List String) :=
  match file with
  | .malformed => .error .malformedFile
  | .tree root => parseObjects (root.findAll "object")

/-! ## Well-formedness of annotation trees (spec vocabulary for the read contract) -/

def intFieldOk (parent : XmlElem) (tag : String) : Bool :=
  match parent.findChild tag with
  | none => false
  | some e => e.text.toInt?.isSome

/-- An object block in which the label and the four coordinates are all present
with integer-parsable coordinate text. -/
def objWF (obj : XmlElem) : Bool :=
  (obj.findChild "name").isSome &&
    (match obj.findChild "bndbox" with
     | none => false
     | some bb =>
       intFieldOk bb "xmin" && intFieldOk bb "ymin" &&
         intFieldOk bb "xmax" && intFieldOk bb "ymax")

def intFieldD (parent : XmlElem) (tag : String) : Int :=
  (match parent.findChild tag with
   | none => none
   | some e => e.text.toInt?).getD 0

/-- The bounding box stored in an object block (defaulting where absent). -/
def objBoxOf (obj : XmlElem) : BBox :=
  match obj.findChild "bndbox" with
  | none => (0, 0, 0, 0)
  | some bb => (intFieldD bb "xmin", intFieldD bb "ymin",
      intFieldD bb "xmax", intFieldD bb "ymax")

/-- The label text stored in an object block (defaulting where absent). -/
def objLabelOf (obj : XmlElem) : String :=
  match obj.findChild "name" with
  | none => ""
  | some e => e.text

/-! ## Annotator session (`pascalvoc_annotator.py`)

The session state carries the fields of `PascalVOCAnnotator` that the logic
reads, plus the on-disk annotation directory (`fs`), so that navigation can
model its file writes and deletions.  `imgPaths` never changes after
construction.  `indexOpt` is `none` exactly while `self._index` is unset,
i.e. before the `self.index = 0` at the end of `__init__` (the
`hasattr(self, '_index')` test in `_remove_annotation_file_when_empty`).
`curImg` is `some` when `self._cur_img` is not `None`. -/

def PASCAL_VOC_IMAGE_EXTENSION : String := ".jpg"

def QUIT_KEY : Char := 'q'

def CLEAR_KEY : Char := 'c'

def NEXT_KEY : Char := 'n'

def PREV_KEY : Char := 'p'

def UNDO_KEY : Char := 'u'

structure AnnotatorState where
  imgPaths : List String
  objLabel : String
  curImg : Option Image
  curBboxes : List BBox
  curLabels : List String
  changed : Bool
  bbboxInProgress : Option BBox
  annotations : List (String × (List BBox × List String))
  indexOpt : Option Nat
  fs : FS

/-- Errors a session transition can raise: the label/box count assertion in the
index setter, `os.remove` on a path that does not exist (Python
`FileNotFoundError`), and the `assert ... is not None` after a failed
`cv2.imread` (the spec's ImageReadError). -/
inductive StepError where
  | labelBoxMismatch
  | fileNotFound (path : String)
  | imageReadFailed (path : String)

/-- Model of the `cur_img_path` property: `self._img_paths[self._index]`. -/
def cur_img_path (s : AnnotatorState) : String :=
  s.imgPaths.getD (s.indexOpt.getD 0) ""

/-- Lines 132-136 of the index setter: if an image is loaded, has boxes and is
dirty, assert the two sequences have equal length and persist them with
`overwrite=True` (re-reading the image from disk, which can fail at the imread
assert inside the codec helper). -/
def save_outgoing (images : String → Option Image) (s : AnnotatorState) :
    Except StepError FS :=
  if s.curImg ≠ none ∧ s.curBboxes ≠ [] ∧ s.changed = true then
    if s.curLabels.length = s.curBboxes.length then
      match generate_pascvalvoc_annotation_from_image_file images (cur_img_path s)
          s.curLabels s.curBboxes true s.fs with
      | none => .error (.imageReadFailed (cur_img_path s))
      | some r => .ok r.2
    else .error .labelBoxMismatch
  else .ok s.fs

/-- Model of `_remove_annotation_file_when_empty` (lines 75-79).  The test
`hasattr(self, '_index')` is `s.indexOpt ≠ none`.  The Python condition parses as
`(not bboxes) or ((not labels) and isfile(path))`, so when the box list is empty
`os.remove` runs unconditionally and raises `FileNotFoundError` if no annotation
file exists. -/
def _remove_annotation_file_when_empty (s : AnnotatorState) : Except StepError FS :=
  if s.indexOpt = none then .ok s.fs
  else
    if s.curBboxes = [] ∨
        (s.curLabels = [] ∧ (alookup s.fs (cur_img_path s)).isSome) then
      if (alookup s.fs (cur_img_path s)).isSome then
        .ok (aerase s.fs (cur_img_path s))
      else .error (.fileNotFound (cur_img_path s))
    else .ok s.fs

/-- Line 140 of the index setter: `self._index = value % len(self._img_paths)`
(Python's modulo on a positive count agrees with `Int.emod`). -/
def new_index (s : AnnotatorState) (value : Int) : Nat :=
  (value % (s.imgPaths.length : Int)).toNat

/-- The image path the setter switches to. -/
def new_path (s : AnnotatorState) (value : Int) : String :=
  s.imgPaths.getD (new_index s value) ""

/-- Lines 143-144: create the incoming image's record when absent. -/
def new_annotations (s : AnnotatorState) (value : Int) :
    List (String × (List BBox × List String)) :=
  if (alookup s.annotations (new_path s value)).isSome then s.annotations
  else aset s.annotations (new_path s value) ([], [])

/-- Line 146: the record the current sequences are bound to after the switch. -/
def new_record (s : AnnotatorState) (value : Int) : List BBox × List String :=
  (alookup (new_annotations s value) (new_path s value)).getD ([], [])

/-- Lines 140-148 of the index setter, after the outgoing image has been
reconciled and the incoming image decoded to `img`: switch the index, bind the
record and clear the dirty flag.  `fs2` is the directory contents after the
save/delete steps. -/
def landing_state (s : AnnotatorState) (value : Int) (img : Image) (fs2 : FS) :
    AnnotatorState :=
  { s with
    fs := fs2, indexOpt := some (new_index s value),
    curImg := some img,
    annotations := new_annotations s value,
    curBboxes := (new_record s value).1, curLabels := (new_record s value).2,
    changed := false }

/-- Model of the `index` setter (lines 132-148): persist the outgoing image if
dirty, reconcile an empty outgoing record with the disk, then switch to
`value % len(img_paths)`, load that image, create its record if absent, bind the
current sequences to it and reset the dirty flag.  A failed `cv2.imread` of the
incoming image trips the `assert self._cur_img is not None` (line 147); the
assertion aborts the session, so the model raises the error without building the
landing state (the record-map mutation the source performs just before the
assert is unobservable after the abort). -/
def index_set (images : String → Option Image) (s : AnnotatorState) (value : Int) :
    Except StepError AnnotatorState :=
  match save_outgoing images s with
  | .error e => .error e
  | .ok fs1 =>
    match _remove_annotation_file_when_empty { s with fs := fs1 } with
    | .error e => .error e
    | .ok fs2 =>
      match images (new_path s value) with
      | none => .error (.imageReadFailed (new_path s value))
      | some img => .ok (landing_state s value img fs2)

/-- Model of `_next_image`: `self.index = self.index + 1`. -/
def _next_image (images : String → Option Image) (s : AnnotatorState) :
    Except StepError AnnotatorState :=
  index_set images s ((s.indexOpt.getD 0 : Nat) + 1)

/-- Model of `_prev_image`: `self.index = self.index - 1`. -/
def _prev_image (images : String → Option Image) (s : AnnotatorState) :
    Except StepError AnnotatorState :=
  index_set images s ((s.indexOpt.getD 0 : Nat) - 1)

/-- Update of `_cur_bboxes`/`_cur_labels`.  In Python these lists are the same
objects as the entry `_annotations[cur_img_path]` (bound by tuple unpacking in the
index setter), so mutating them mutates the map entry as well; the model updates
both. -/
def setCurRecord (s : AnnotatorState) (bs : List BBox) (ls : List String) :
    AnnotatorState :=
  { s with
    curBboxes := bs, curLabels := ls,
    annotations := aset s.annotations (cur_img_path s) (bs, ls) }

/-- Model of `_undo` (lines 81-85): when no draw is in progress and both current
sequences are non-empty, mark dirty and delete the last element of each. -/
def _undo (s : AnnotatorState) : AnnotatorState :=
  if s.bbboxInProgress = none ∧ s.curBboxes ≠ [] ∧ s.curLabels ≠ [] then
    setCurRecord { s with changed := true } s.curBboxes.dropLast s.curLabels.dropLast
  else s

/-- Model of `_clear` (lines 88-95): drop the loaded image, mark dirty, delete the
current image's map entry if present, then re-run the index setter at the current
index. -/
def _clear (images : String → Option Image) (s : AnnotatorState) :
    Except StepError AnnotatorState :=
  index_set images
    { s with
      curImg := none, changed := true,
      annotations := aerase s.annotations (cur_img_path s) }
    (s.indexOpt.getD 0 : Nat)

/-- The mouse events delivered by the display collaborator. -/
inductive MouseEvent where
  | lbuttondown (x y : Int)
  | mousemove (x y : Int)
  | lbuttonup (x y : Int)

/-- Model of `_mouse_callback` (lines 97-107): press starts a zero-size in-progress
box, drag updates its second corner, release commits the in-progress box (as last
dragged; the release coordinates are unused) together with the session label, and
marks dirty. -/
def _mouse_callback (s : AnnotatorState) (e : MouseEvent) : AnnotatorState :=
  match e with
  | .lbuttondown x y => { s with bbboxInProgress := some (x, y, x, y) }
  | .mousemove x y =>
    match s.bbboxInProgress with
    | some (a, b, _, _) => { s with bbboxInProgress := some (a, b, x, y) }
    | none => s
  | .lbuttonup _ _ =>
    match s.bbboxInProgress with
    | some bb =>
      setCurRecord { s with changed := true, bbboxInProgress := none }
        (s.curBboxes ++ [bb]) (s.curLabels ++ [s.objLabel])
    | none => s

/-- Key dispatch of `update` (lines 158-180); `'q'` only signals the loop to stop
and leaves the state unchanged, unrecognized keys are no-ops. -/
def update_key (images : String → Option Image) (s : AnnotatorState) (c : Char) :
    Except StepError AnnotatorState :=
  if c = QUIT_KEY then .ok s
  else if c = NEXT_KEY then _next_image images s
  else if c = PREV_KEY then _prev_image images s
  else if c = CLEAR_KEY then _clear images s
  else if c = UNDO_KEY then .ok (_undo s)
  else .ok s

/-- Model of `__exit__` (lines 187-191): one final save-if-dirty, performed by
assigning `self.index + 1`. -/
def exit_annotator (images : String → Option Image) (s : AnnotatorState) :
    Except StepError AnnotatorState :=
  if s.changed = true then index_set images s ((s.indexOpt.getD 0 : Nat) + 1)
  else .ok s

/-! ## Construction (`__init__` and `_load_saved_annotations`) -/

inductive InitError where
  | notADirectory
  | noImagesFound
  | loadFailed (e : ParseError)
  | stepFailed (e : StepError)

/-- Model of `_load_saved_annotations` (lines 62-66): parse every file in the
annotation directory and index the results by image path. -/
def load_saved_annotations : FS → Except ParseError (List (String × (List BBox × List String)))
  | [] => .ok []
  | (p, f) :: rest =>
    match _parse_pascalvoc_annoation f with
    | .error e => .error e
    | .ok r =>
      match load_saved_annotations rest with
      | .error e => .error e
      | .ok m => .ok ((p, r) :: m)

/-- Model of `PascalVOCAnnotator.__init__` (lines 45-60): require the folder to be
a directory, keep the listed filenames containing the image extension as a
substring (joined under the folder), require at least one, pre-load saved
annotations, then assign index 0. -/
def annotator_init (images : String → Option Image) (isDir : Bool) (folder : String)
    (listing : List String) (fs : FS) (objLabel : String) :
    Except InitError AnnotatorState :=
  if isDir = false then .error .notADirectory
  else
    let imgPaths := (listing.filter
        (fun f => decide (PASCAL_VOC_IMAGE_EXTENSION.data <:+: f.data))).map
      (fun f => folder ++ "/" ++ f)
    if imgPaths = [] then .error .noImagesFound
    else
      match load_saved_annotations fs with
      | .error e => .error (.loadFailed e)
      | .ok ann =>
        let s0 : AnnotatorState :=
          { imgPaths := imgPaths, objLabel := objLabel, curImg := none,
            curBboxes := [], curLabels := [], changed := false,
            bbboxInProgress := none, annotations := ann, indexOpt := none, fs := fs }
        match index_set images s0 0 with
        | .error e => .error (.stepFailed e)
        | .ok s => .ok s

/-! ## Event runs -/

inductive Event where
  | mouse (e : MouseEvent)
  | key (c : Char)

def step (images : String → Option Image) (s : AnnotatorState) :
    Event → Except StepError AnnotatorState
  | .mouse e => .ok (_mouse_callback s e)
  | .key c => update_key images s c

def runEvents (images : String → Option Image) (s : AnnotatorState) :
    List Event → Except StepError AnnotatorState
  | [] => .ok s
  | e :: es =>
    match step images s e with
    | .error err => .error err
    | .ok s' => runEvents images s' es

def iterate_next (images : String → Option Image) :
    Nat → AnnotatorState → Except StepError AnnotatorState
  | 0, s => .ok s
  | k + 1, s =>
    match _next_image images s with
    | .error err => .error err
    | .ok s' => iterate_next images k s'

/-- Length agreement of the parallel box and label sequences: for the bound
current record and for every stored record. -/
def len_inv (s : AnnotatorState) : Prop :=
  s.curBboxes.length = s.curLabels.length ∧
    ∀ e ∈ s.annotations, e.2.1.length = e.2.2.length

/-! ## Concrete scenarios -/

/-- A constant image map: every path decodes to a 640x480 RGB image. -/
def sampleImages : String → Option Image := fun _ => some ⟨480, 640, 3⟩

/-- A session over two images whose current image has an empty in-memory record
and no annotation file on disk. -/
def emptyRecordState : AnnotatorState :=
  { imgPaths := ["F/a.jpg", "F/b.jpg"], objLabel := "roomba",
    curImg := some ⟨480, 640, 3⟩, curBboxes := [], curLabels := [],
    changed := false, bbboxInProgress := none,
    annotations := [("F/a.jpg", ([], []))], indexOpt := some 0, fs := [] }

/-- A session whose current image has two committed boxes. -/
def undoSampleState : AnnotatorState :=
  { imgPaths := ["F/a.jpg"], objLabel := "roomba", curImg := some ⟨480, 640, 3⟩,
    curBboxes := [((1 : Int), (1 : Int), (2 : Int), (2 : Int)),
      ((3 : Int), (3 : Int), (4 : Int), (4 : Int))],
    curLabels := ["roomba", "roomba"], changed := false, bbboxInProgress := none,
    annotations := [("F/a.jpg", ([((1 : Int), (1 : Int), (2 : Int), (2 : Int)),
      ((3 : Int), (3 : Int), (4 : Int), (4 : Int))], ["roomba", "roomba"]))],
    indexOpt := some 0, fs := [] }

/-- A clean two-image session (both records non-empty, nothing dirty), on which
navigation performs no file operation. -/
def wrapSampleState : AnnotatorState :=
  { imgPaths := ["F/a.jpg", "F/b.jpg"], objLabel := "r",
    curImg := some ⟨480, 640, 3⟩,
    curBboxes := [((1 : Int), (1 : Int), (2 : Int), (2 : Int))], curLabels := ["r"],
    changed := false, bbboxInProgress := none,
    annotations := [("F/a.jpg", ([((1 : Int), (1 : Int), (2 : Int), (2 : Int))], ["r"])),
      ("F/b.jpg", ([((3 : Int), (3 : Int), (4 : Int), (4 : Int))], ["r"]))],
    indexOpt := some 0, fs := [] }

/-- A two-image session on image 0, which has one committed box, a stale
annotation file on disk, and a dirty flag; image 1 also has a non-empty record. -/
def clearSampleState : AnnotatorState :=
  { imgPaths := ["F/a.jpg", "F/b.jpg"], objLabel := "r",
    curImg := some ⟨480, 640, 3⟩,
    curBboxes := [((1 : Int), (1 : Int), (2 : Int), (2 : Int))], curLabels := ["r"],
    changed := true, bbboxInProgress := none,
    annotations := [("F/a.jpg", ([((1 : Int), (1 : Int), (2 : Int), (2 : Int))], ["r"])),
      ("F/b.jpg", ([((3 : Int), (3 : Int), (4 : Int), (4 : Int))], ["r"]))],
    indexOpt := some 0, fs := [("F/a.jpg", .malformed)] }

/-- A concrete well-formed annotation tree used to witness C6. -/
def sampleRoot : XmlElem :=
  annotation_root ⟨480, 640, 3⟩ ["red roomba"]
    [((10 : Int), (10 : Int), (50 : Int), (50 : Int))]

/-- One drawing gesture followed by a Next keypress. -/
def sampleEvents : List Event :=
  [.mouse (.lbuttondown 1 1), .mouse (.mousemove 5 5), .mouse (.lbuttonup 0 0),
    .key 'n']

/-! ## Decimal round-trip lemmas -/

theorem natDigits_lt {n : Nat} (h : n < 10) : natDigits n = [Nat.digitChar n] := by
  rw [natDigits]; simp [h]

theorem natDigits_ge {n : Nat} (h : ¬ n < 10) :
    natDigits n = natDigits (n / 10) ++ [Nat.digitChar (n % 10)] := by
  rw [natDigits]; simp [h]

theorem natDigits_ne_nil (n : Nat) : natDigits n ≠ [] := by
  by_cases h : n < 10
  · simp [natDigits_lt h]
  · simp [natDigits_ge h]

theorem digitChar_toNat {n : Nat} (h : n < 10) : (Nat.digitChar n).toNat = 48 + n := by
  interval_cases n <;> decide

theorem digitChar_isDigit {n : Nat} (h : n < 10) : (Nat.digitChar n).isDigit = true := by
  interval_cases n <;> decide

theorem natDigits_all_isDigit (n : Nat) : ∀ c ∈ natDigits n, c.isDigit = true := by
  induction n using Nat.strong_induction_on with
  | _ n ih =>
    by_cases h : n < 10
    · simp [natDigits_lt h, digitChar_isDigit h]
    · rw [natDigits_ge h]
      intro c hc
      rcases List.mem_append.1 hc with h1 | h1
      · exact ih (n / 10) (Nat.div_lt_self (by omega) (by omega)) c h1
      · simp only [List.mem_singleton] at h1
        subst h1
        exact digitChar_isDigit (Nat.mod_lt _ (by omega))

theorem natDigits_foldl (n : Nat) :
    ∀ a : Nat, (natDigits n).foldl digitStep a = a * 10 ^ (natDigits n).length + n := by
  induction n using Nat.strong_induction_on with
  | _ n ih =>
    intro a
    have h0 : '0'.toNat = 48 := rfl
    by_cases h : n < 10
    · rw [natDigits_lt h]
      simp only [List.foldl_cons, List.foldl_nil, digitStep, List.length_cons,
        List.length_nil, pow_one]
      rw [digitChar_toNat h, h0]
      omega
    · rw [natDigits_ge h, List.foldl_append,
        ih (n / 10) (Nat.div_lt_self (by omega) (by omega)) a]
      simp only [List.foldl_cons, List.foldl_nil, digitStep, List.length_append,
        List.length_cons, List.length_nil]
      rw [digitChar_toNat (Nat.mod_lt n (by omega)), h0, pow_succ, ← mul_assoc]
      generalize a * 10 ^ (natDigits (n / 10)).length = K
      omega

theorem toDigitsCore_eq (fuel : Nat) :
    ∀ (n : Nat) (acc : List Char), n < fuel →
      Nat.toDigitsCore 10 fuel n acc = natDigits n ++ acc := by
  induction fuel with
  | zero => omega
  | succ f ih =>
    intro n acc h
    rw [Nat.toDigitsCore]
    by_cases h10 : n / 10 = 0
    · have hn : n < 10 := by omega
      simp [h10, natDigits_lt hn, Nat.mod_eq_of_lt hn]
    · have hn : ¬ n < 10 := by omega
      simp only [h10, if_neg (by omega : ¬ n / 10 = 0)]
      rw [ih (n / 10) _ (by omega), natDigits_ge hn]
      simp

theorem natRepr_eq (n : Nat) : Nat.repr n = ⟨natDigits n⟩ := by
  rw [Nat.repr, Nat.toDigits, toDigitsCore_eq _ _ _ (Nat.lt_succ_self n), List.append_nil]
  rfl

theorem toNat?_natDigits (n : Nat) : String.toNat? ⟨natDigits n⟩ = some n := by
  rw [String.toNat?]
  rw [if_pos]
  · rw [String.foldl_eq]
    show some ((natDigits n).foldl digitStep 0) = some n
    have := natDigits_foldl n 0
    simp only [Nat.zero_mul, Nat.zero_add] at this
    rw [this]
  · rw [String.isNat, Bool.and_eq_true, Bool.not_eq_true', String.all_eq]
    refine ⟨?_, ?_⟩
    · rw [← Bool.not_eq_true, String.isEmpty_iff]
      intro hcon
      exact natDigits_ne_nil n (congrArg String.data hcon)
    · exact List.all_eq_true.2 (natDigits_all_isDigit n)

theorem toNat?_repr (n : Nat) : String.toNat? (Nat.repr n) = some n := by
  rw [natRepr_eq]; exact toNat?_natDigits n

theorem isDigit_ne_dash {c : Char} (h : c.isDigit = true) : ¬ c = '-' := by
  rintro rfl
  exact absurd h (by decide)

theorem natDigits_head_ne_dash (n : Nat) : (natDigits n).headD default ≠ '-' := by
  rcases hne : natDigits n with _ | ⟨c, cs⟩
  · exact absurd hne (natDigits_ne_nil n)
  · have : c.isDigit = true := by
      have := natDigits_all_isDigit n c
      rw [hne] at this
      exact this (List.mem_cons_self c cs)
    simpa using isDigit_ne_dash this

/-- The decimal round-trip for `Int`, as used by encoding coordinates with
`str(...)` and decoding them with `int(...)`. -/
theorem toInt?_toString_int (n : Int) : String.toInt? (toString n) = some n := by
  cases n with
  | ofNat m =>
    show String.toInt? (Nat.repr m) = some (Int.ofNat m)
    rw [String.toInt?]
    rw [if_neg, toNat?_repr]
    · rfl
    · rw [natRepr_eq]
      have := String.get_of_valid [] (natDigits m)
      simp only [List.nil_append] at this
      rw [show ({ byteIdx := String.utf8Len [] } : String.Pos) = 0 from rfl] at this
      rw [this]
      exact natDigits_head_ne_dash m
  | negSucc m =>
    have hs : toString (Int.negSucc m) = ⟨'-' :: natDigits (m + 1)⟩ := by
      show "-" ++ Nat.repr (m + 1) = _
      rw [natRepr_eq]
      rfl
    rw [hs, String.toInt?]
    have hget : (⟨'-' :: natDigits (m + 1)⟩ : String).get 0 = '-' := by
      have := String.get_of_valid [] ('-' :: natDigits (m + 1))
      simpa using this
    rw [if_pos hget]
    have hvf : Substring.ValidFor [] ('-' :: natDigits (m + 1)) []
        (String.toSubstring ⟨'-' :: natDigits (m + 1)⟩) :=
      String.validFor_toSubstring _
    have hvf1 := hvf.drop 1
    simp only [List.take_succ_cons, List.take_zero, List.drop_succ_cons,
      List.drop_zero, List.nil_append] at hvf1
    have hnat : ((String.toSubstring ⟨'-' :: natDigits (m + 1)⟩).drop 1).toNat? =
        some (m + 1) := by
      rw [Substring.toNat?]
      rw [if_pos]
      · rw [hvf1.foldl]
        show some ((natDigits (m + 1)).foldl digitStep 0) = some (m + 1)
        have := natDigits_foldl (m + 1) 0
        simp only [Nat.zero_mul, Nat.zero_add] at this
        rw [this]
      · rw [Substring.isNat, hvf1.all]
        exact List.all_eq_true.2 (natDigits_all_isDigit (m + 1))
    rw [hnat]
    rfl

/-! ## Association-list lemmas -/

theorem alookup_aset_self {β : Type} (m : List (String × β)) (k : String) (v : β) :
    alookup (aset m k v) k = some v := by
  induction m with
  | nil => simp [aset, alookup]
  | cons hd tl ih =>
    obtain ⟨a, b⟩ := hd
    by_cases h : a = k
    · subst h; simp [aset, alookup]
    · simp [aset, alookup, h, ih]

theorem alookup_aset_ne {β : Type} (m : List (String × β)) (k q : String) (v : β)
    (h : ¬ k = q) : alookup (aset m k v) q = alookup m q := by
  induction m with
  | nil => simp [aset, alookup, h]
  | cons hd tl ih =>
    obtain ⟨a, b⟩ := hd
    by_cases ha : a = k
    · subst ha
      simp only [aset, if_pos rfl]
      simp [alookup, h]
    · simp only [aset, if_neg ha]
      by_cases hq : a = q
      · subst hq
        simp [alookup]
      · simp [alookup, hq, ih]

theorem alookup_aerase_ne {β : Type} (m : List (String × β)) (k q : String)
    (h : ¬ k = q) : alookup (aerase m k) q = alookup m q := by
  induction m with
  | nil => simp [aerase]
  | cons hd tl ih =>
    obtain ⟨a, b⟩ := hd
    by_cases ha : a = k
    · subst ha
      simp only [aerase, if_pos rfl]
      simp [alookup, h]
    · simp only [aerase, if_neg ha]
      by_cases hq : a = q
      · subst hq
        simp [alookup]
      · simp [alookup, hq, ih]

theorem alookup_eq_none_of_not_mem_keys {β : Type} (m : List (String × β)) (k : String) :
    k ∉ m.map Prod.fst → alookup m k = none := by
  induction m with
  | nil => intro _; rfl
  | cons hd tl ih =>
    obtain ⟨a, b⟩ := hd
    intro h
    simp only [List.map_cons, List.mem_cons, not_or] at h
    have hne : ¬ a = k := fun hh => h.1 hh.symm
    simp only [alookup, if_neg hne]
    exact ih h.2

theorem alookup_aerase_self {β : Type} (m : List (String × β)) (k : String)
    (h : (m.map Prod.fst).Nodup) : alookup (aerase m k) k = none := by
  induction m with
  | nil => rfl
  | cons hd tl ih =>
    obtain ⟨a, b⟩ := hd
    simp only [List.map_cons, List.nodup_cons] at h
    by_cases ha : a = k
    · subst ha
      simp only [aerase, if_pos rfl]
      exact alookup_eq_none_of_not_mem_keys tl a h.1
    · simp only [aerase, if_neg ha, alookup, if_neg ha]
      exact ih h.2

theorem mem_aset {β : Type} (m : List (String × β)) (k : String) (v : β) (e : String × β) :
    e ∈ aset m k v → e ∈ m ∨ e = (k, v) := by
  induction m with
  | nil =>
    intro h
    simp only [aset, List.mem_singleton] at h
    exact Or.inr h
  | cons hd tl ih =>
    obtain ⟨a, b⟩ := hd
    intro h
    by_cases ha : a = k
    · subst ha
      simp only [aset, List.mem_cons, if_true, eq_self_iff_true] at h
      rcases h with h | h
      · exact Or.inr h
      · exact Or.inl (List.mem_cons_of_mem _ h)
    · simp only [aset, if_neg ha, List.mem_cons] at h
      rcases h with h | h
      · exact Or.inl (by simp [h])
      · rcases ih h with h2 | h2
        · exact Or.inl (List.mem_cons_of_mem _ h2)
        · exact Or.inr h2

theorem mem_aerase {β : Type} (m : List (String × β)) (k : String) (e : String × β) :
    e ∈ aerase m k → e ∈ m := by
  induction m with
  | nil =>
    intro h
    simp [aerase] at h
  | cons hd tl ih =>
    obtain ⟨a, b⟩ := hd
    intro h
    by_cases ha : a = k
    · subst ha
      simp only [aerase, if_true, eq_self_iff_true] at h
      exact List.mem_cons_of_mem _ h
    · simp only [aerase, if_neg ha, List.mem_cons] at h
      rcases h with h | h
      · simp [h]
      · exact List.mem_cons_of_mem _ (ih h)

theorem alookup_mem {β : Type} (m : List (String × β)) (k : String) (v : β) :
    alookup m k = some v → (k, v) ∈ m := by
  induction m with
  | nil => intro h; simp [alookup] at h
  | cons hd tl ih =>
    obtain ⟨a, b⟩ := hd
    intro h
    by_cases ha : a = k
    · subst ha
      simp [alookup] at h
      subst h
      exact List.mem_cons_self _ _
    · simp only [alookup, if_neg ha] at h
      exact List.mem_cons_of_mem _ (ih h)

/-! ## Codec lemmas -/

theorem toString_string (s : String) : toString s = s := rfl

theorem parseObject_gen (nm : String) (bb : BBox) :
    parseObject ( _generate_object_annotation nm bb) = .ok (bb, nm) := by
  obtain ⟨x1, y1, x2, y2⟩ := bb
  simp [parseObject, _generate_object_annotation, _generate_xml_element_with_text,
    XmlElem.findChild, XmlElem.children, XmlElem.tag, XmlElem.text, intField,
    OBJECT_ELEMENT_NAME, toString_string, toInt?_toString_int, List.find?]

theorem filter_map_object (l : List (String × BBox)) :
    List.filter (fun c => c.tag == "object")
        (l.map (fun p => _generate_object_annotation p.1 p.2)) =
      l.map (fun p => _generate_object_annotation p.1 p.2) := by
  induction l with
  | nil => rfl
  | cons hd tl ih =>
    rw [List.map_cons, List.filter_cons_of_pos
      (by simp [ _generate_object_annotation, OBJECT_ELEMENT_NAME, XmlElem.tag]), ih]

theorem findAll_annotation_root (img : Image) (labels : List String) (boxes : List BBox) :
    (annotation_root img labels boxes).findAll "object" =
      (labels.zip boxes).map (fun p => _generate_object_annotation p.1 p.2) := by
  unfold annotation_root XmlElem.findAll
  simp only [XmlElem.children]
  rw [List.filter_cons_of_neg (by simp [XmlElem.tag])]
  exact filter_map_object (labels.zip boxes)

theorem parseObjects_gen : ∀ (labels : List String) (boxes : List BBox),
    labels.length = boxes.length →
    parseObjects ((labels.zip boxes).map (fun p => _generate_object_annotation p.1 p.2)) =
      .ok (boxes, labels) := by
  intro labels
  induction labels with
  | nil =>
    intro boxes h
    have hb : boxes = [] := by
      cases boxes
      · rfl
      · simp at h
    subst hb
    rfl
  | cons l ls ih =>
    intro boxes h
    cases boxes with
    | nil => simp at h
    | cons b bs =>
      show parseObjects (((l, b) :: ls.zip bs).map
          (fun p => _generate_object_annotation p.1 p.2)) = .ok (b :: bs, l :: ls)
      simp only [List.map_cons, parseObjects, parseObject_gen]
      rw [ih bs (by simpa using h)]

/-- C2: encoding any non-empty pair of equal-length label and box sequences with any
image dimensions and decoding the resulting document yields the original labels and
boxes, in the same order. -/
theorem encode_decode_round_trip (img : Image) (labels : List String) (boxes : List BBox)
    (hlen : labels.length = boxes.length) (hne : labels ≠ []) :
    _parse_pascalvoc_annoation (.tree (annotation_root img labels boxes)) =
      .ok (boxes, labels) := by
  show parseObjects ((annotation_root img labels boxes).findAll "object") =
    .ok (boxes, labels)
  rw [findAll_annotation_root, parseObjects_gen labels boxes hlen]

/-- Witness for C2 at a concrete document. -/
theorem encode_decode_round_trip_witness :
    (["red roomba"] : List String).length = ([((10 : Int), (10 : Int), (50 : Int), (50 : Int))] : List BBox).length ∧
    (["red roomba"] : List String) ≠ [] ∧
    _parse_pascalvoc_annoation (.tree (annotation_root ⟨480, 640, 3⟩ ["red roomba"]
        [((10 : Int), (10 : Int), (50 : Int), (50 : Int))])) =
      .ok ([((10 : Int), (10 : Int), (50 : Int), (50 : Int))], ["red roomba"]) :=
  ⟨rfl, by decide,
    encode_decode_round_trip ⟨480, 640, 3⟩ ["red roomba"]
      [((10 : Int), (10 : Int), (50 : Int), (50 : Int))] rfl (by decide)⟩

/-- C3: the codec write fails (with the already-exists error) exactly when
`overwrite` is false and the target path exists; otherwise it stores the serialized
document at the path, replacing any prior content. -/
theorem write_contract (img : Image) (obj_names : List String) (bboxes : List BBox)
    (file_path : String) (overwrite : Bool) (fs : FS) :
    ((generate_pascalvoc_annotation_from_image img obj_names bboxes file_path
        overwrite fs).1.isSome ↔
      overwrite = false ∧ (alookup fs file_path).isSome = true) ∧
    ((generate_pascalvoc_annotation_from_image img obj_names bboxes file_path
        overwrite fs).1 = none →
      alookup (generate_pascalvoc_annotation_from_image img obj_names bboxes file_path
          overwrite fs).2 file_path =
        some (.tree (annotation_root img obj_names bboxes))) := by
  unfold generate_pascalvoc_annotation_from_image
  by_cases h : overwrite = false ∧ (alookup fs file_path).isSome = true
  · simp [h]
  · simp [h, alookup_aset_self]

/-- Witness for C3 at a concrete document and file system. -/
theorem write_contract_witness :
    ((generate_pascalvoc_annotation_from_image ⟨480, 640, 3⟩ ["red roomba"]
        [((10 : Int), (10 : Int), (50 : Int), (50 : Int))] "F/a.jpg" true []).1.isSome ↔
      true = false ∧ (alookup ([] : FS) "F/a.jpg").isSome = true) ∧
    ((generate_pascalvoc_annotation_from_image ⟨480, 640, 3⟩ ["red roomba"]
        [((10 : Int), (10 : Int), (50 : Int), (50 : Int))] "F/a.jpg" true []).1 = none →
      alookup (generate_pascalvoc_annotation_from_image ⟨480, 640, 3⟩ ["red roomba"]
          [((10 : Int), (10 : Int), (50 : Int), (50 : Int))] "F/a.jpg" true []).2 "F/a.jpg" =
        some (.tree (annotation_root ⟨480, 640, 3⟩ ["red roomba"]
          [((10 : Int), (10 : Int), (50 : Int), (50 : Int))]))) :=
  write_contract ⟨480, 640, 3⟩ ["red roomba"]
    [((10 : Int), (10 : Int), (50 : Int), (50 : Int))] "F/a.jpg" true []

/-- C10: a write rejected because `overwrite` is false and the path exists leaves
the file system, and in particular the target file's content, unchanged: the
existence check precedes opening the file. -/
theorem rejected_write_preserves_file (img : Image) (obj_names : List String)
    (bboxes : List BBox) (file_path : String) (fs : FS) (c : AnnFile)
    (h : alookup fs file_path = some c) :
    (generate_pascalvoc_annotation_from_image img obj_names bboxes file_path
        false fs).2 = fs ∧
    (generate_pascalvoc_annotation_from_image img obj_names bboxes file_path
        false fs).1.isSome = true ∧
    alookup (generate_pascalvoc_annotation_from_image img obj_names bboxes file_path
        false fs).2 file_path = some c := by
  unfold generate_pascalvoc_annotation_from_image
  simp [h]

/-- Witness for C10 at a concrete file system with an existing file. -/
theorem rejected_write_preserves_file_witness :
    alookup ([("F/a.jpg", AnnFile.malformed)] : FS) "F/a.jpg" = some AnnFile.malformed ∧
    (generate_pascalvoc_annotation_from_image ⟨480, 640, 3⟩ ["x"]
        [((1 : Int), (2 : Int), (3 : Int), (4 : Int))] "F/a.jpg" false
        [("F/a.jpg", AnnFile.malformed)]).2 = [("F/a.jpg", AnnFile.malformed)] ∧
    (generate_pascalvoc_annotation_from_image ⟨480, 640, 3⟩ ["x"]
        [((1 : Int), (2 : Int), (3 : Int), (4 : Int))] "F/a.jpg" false
        [("F/a.jpg", AnnFile.malformed)]).1.isSome = true ∧
    alookup (generate_pascalvoc_annotation_from_image ⟨480, 640, 3⟩ ["x"]
        [((1 : Int), (2 : Int), (3 : Int), (4 : Int))] "F/a.jpg" false
        [("F/a.jpg", AnnFile.malformed)]).2 "F/a.jpg" = some AnnFile.malformed := by
  refine ⟨rfl, ?_⟩
  have := rejected_write_preserves_file ⟨480, 640, 3⟩ ["x"]
    [((1 : Int), (2 : Int), (3 : Int), (4 : Int))] "F/a.jpg"
    [("F/a.jpg", AnnFile.malformed)] AnnFile.malformed rfl
  exact ⟨this.1, this.2.1, this.2.2⟩

/-! ## Parse characterization (C6) -/

theorem intField_ok (parent : XmlElem) (tag : String) :
    intFieldOk parent tag = true → intField parent tag = .ok (intFieldD parent tag) := by
  intro h
  rcases hf : parent.findChild tag with _ | e
  · simp [intFieldOk, hf] at h
  · rcases ht : e.text.toInt? with _ | v
    · simp [intFieldOk, hf, ht] at h
    · simp [intField, intFieldD, hf, ht]

theorem intField_not_ok (parent : XmlElem) (tag : String) :
    intFieldOk parent tag = false → ∃ e, intField parent tag = .error e := by
  intro h
  rcases hf : parent.findChild tag with _ | e
  · exact ⟨.missingField tag, by simp [intField, hf]⟩
  · rcases ht : e.text.toInt? with _ | v
    · exact ⟨.nonIntegerField tag, by simp [intField, hf, ht]⟩
    · simp [intFieldOk, hf, ht] at h

theorem parseObject_wf (obj : XmlElem) :
    objWF obj = true → parseObject obj = .ok (objBoxOf obj, objLabelOf obj) := by
  intro h
  rcases hn : obj.findChild "name" with _ | nameEl
  · simp [objWF, hn] at h
  · rcases hb : obj.findChild "bndbox" with _ | bb
    · simp [objWF, hn, hb] at h
    · simp only [objWF, hn, hb, Option.isSome_some, Bool.true_and,
        Bool.and_eq_true] at h
      obtain ⟨⟨⟨h1, h2⟩, h3⟩, h4⟩ := h
      simp [parseObject, objBoxOf, objLabelOf, hn, hb,
        intField_ok bb "xmin" h1, intField_ok bb "ymin" h2,
        intField_ok bb "xmax" h3, intField_ok bb "ymax" h4]

theorem parseObject_not_wf (obj : XmlElem) :
    objWF obj = false → ∃ e, parseObject obj = .error e := by
  intro h
  rcases hn : obj.findChild "name" with _ | nameEl
  · exact ⟨.missingField "name", by simp [parseObject, hn]⟩
  · rcases hb : obj.findChild "bndbox" with _ | bb
    · exact ⟨.missingField "bndbox", by simp [parseObject, hn, hb]⟩
    · simp only [objWF, hn, hb, Option.isSome_some, Bool.true_and] at h
      cases h1 : intFieldOk bb "xmin" with
      | false =>
        obtain ⟨e, he⟩ := intField_not_ok bb "xmin" h1
        exact ⟨e, by simp [parseObject, hn, hb, he]⟩
      | true =>
        cases h2 : intFieldOk bb "ymin" with
        | false =>
          obtain ⟨e, he⟩ := intField_not_ok bb "ymin" h2
          exact ⟨e, by simp [parseObject, hn, hb, intField_ok bb "xmin" h1, he]⟩
        | true =>
          cases h3 : intFieldOk bb "xmax" with
          | false =>
            obtain ⟨e, he⟩ := intField_not_ok bb "xmax" h3
            exact ⟨e, by simp [parseObject, hn, hb, intField_ok bb "xmin" h1,
              intField_ok bb "ymin" h2, he]⟩
          | true =>
            cases h4 : intFieldOk bb "ymax" with
            | false =>
              obtain ⟨e, he⟩ := intField_not_ok bb "ymax" h4
              exact ⟨e, by simp [parseObject, hn, hb, intField_ok bb "xmin" h1,
                intField_ok bb "ymin" h2, intField_ok bb "xmax" h3, he]⟩
            | true =>
              rw [h1, h2, h3, h4] at h
              simp at h

theorem parseObjects_wf (objs : List XmlElem) :
    objs.all objWF = true →
    parseObjects objs = .ok (objs.map objBoxOf, objs.map objLabelOf) := by
  induction objs with
  | nil => intro _; rfl
  | cons o os ih =>
    intro h
    simp only [List.all_cons, Bool.and_eq_true] at h
    simp only [parseObjects, parseObject_wf o h.1, ih h.2, List.map_cons]

theorem parseObjects_not_wf (objs : List XmlElem) :
    objs.all objWF = false → ∃ e, parseObjects objs = .error e := by
  induction objs with
  | nil => intro h; simp at h
  | cons o os ih =>
    intro h
    rw [List.all_cons] at h
    cases hw : objWF o with
    | false =>
      obtain ⟨e, he⟩ := parseObject_not_wf o hw
      exact ⟨e, by simp only [parseObjects, he]⟩
    | true =>
      have hos : os.all objWF = false := by
        rw [hw] at h
        simpa using h
      obtain ⟨e, he⟩ := ih hos
      exact ⟨e, by simp only [parseObjects, parseObject_wf o hw, he]⟩

/-- C6: reading an annotation file fails with a parse error exactly when the file
is malformed or some object block misses its name or one of the four coordinates,
or has non-integer coordinate text; otherwise it returns the boxes and labels of
the object blocks in document order, as two order-aligned sequences. -/
theorem read_contract (file : AnnFile) :
    ((∃ e, _parse_pascalvoc_annoation file = .error e) ↔
      (file = .malformed ∨
        ∃ root, file = .tree root ∧ (root.findAll "object").all objWF = false)) ∧
    (∀ root, file = .tree root → (root.findAll "object").all objWF = true →
      _parse_pascalvoc_annoation file =
        .ok ((root.findAll "object").map objBoxOf,
          (root.findAll "object").map objLabelOf)) := by
  cases file with
  | malformed =>
    refine ⟨⟨fun _ => Or.inl rfl, fun _ => ⟨.malformedFile, rfl⟩⟩, ?_⟩
    intro root heq
    exact absurd heq (by simp)
  | tree root =>
    constructor
    · constructor
      · rintro ⟨e, he⟩
        refine Or.inr ⟨root, rfl, ?_⟩
        cases hall : (root.findAll "object").all objWF with
        | false => rfl
        | true =>
          rw [show _parse_pascalvoc_annoation (.tree root) =
              parseObjects (root.findAll "object") from rfl,
            parseObjects_wf _ hall] at he
          exact absurd he (by simp)
      · rintro (h | ⟨root2, heq, hall⟩)
        · exact absurd h (by simp)
        · injection heq with h2
          subst h2
          obtain ⟨e, he⟩ := parseObjects_not_wf _ hall
          exact ⟨e, he⟩
    · intro root2 heq hall
      injection heq with h2
      subst h2
      show parseObjects (root.findAll "object") = _
      exact parseObjects_wf _ hall

/-- Witness for C6 at a concrete file. -/
theorem read_contract_witness :
    (sampleRoot.findAll "object").all objWF = true ∧
    _parse_pascalvoc_annoation (.tree sampleRoot) =
      .ok ((sampleRoot.findAll "object").map objBoxOf,
        (sampleRoot.findAll "object").map objLabelOf) := by
  have hall : (sampleRoot.findAll "object").all objWF = true := by
    simp [sampleRoot, annotation_root, _generate_object_annotation,
      _generate_xml_element_with_text, XmlElem.findAll, XmlElem.findChild,
      XmlElem.children, XmlElem.tag, XmlElem.text, objWF, intFieldOk,
      OBJECT_ELEMENT_NAME, toInt?_toString_int]
  exact ⟨hall, (read_contract (.tree sampleRoot)).2 sampleRoot rfl hall⟩

/-! ## Session transition lemmas -/

theorem natMod_cast (a b : Nat) : ((a : Int) % (b : Int)).toNat = a % b := by
  omega

theorem neg_one_mod_toNat (N : Nat) (hN : 0 < N) :
    ((-1 : Int) % (N : Int)).toNat = N - 1 := by
  have h2 : ((-1 : Int) + (N : Int) * 1) % (N : Int) = (-1 : Int) % (N : Int) :=
    Int.add_mul_emod_self_left (-1) (N : Int) 1
  rw [mul_one] at h2
  have h3 : ((-1 : Int) + (N : Int)) % (N : Int) = (-1 : Int) + (N : Int) :=
    Int.emod_eq_of_lt (by omega) (by omega)
  omega

theorem add_one_mod_toNat (i N : Nat) :
    (((i : Int) + 1) % (N : Int)).toNat = (i + 1) % N := by
  have h : ((i : Int) + 1) = ((i + 1 : Nat) : Int) := by push_cast; ring
  rw [h, natMod_cast]

theorem save_outgoing_skip (images : String → Option Image) (s : AnnotatorState)
    (h : s.curImg = none ∨ s.curBboxes = [] ∨ s.changed = false) :
    save_outgoing images s = .ok s.fs := by
  unfold save_outgoing
  rw [if_neg]
  rintro ⟨h1, h2, h3⟩
  rcases h with h | h | h
  · exact h1 h
  · exact h2 h
  · rw [h] at h3
    exact Bool.false_ne_true h3

theorem save_outgoing_writes (images : String → Option Image) (s : AnnotatorState)
    (img : Image) (himg : s.curImg ≠ none) (hb : s.curBboxes ≠ [])
    (hch : s.changed = true)
    (hlen : s.curLabels.length = s.curBboxes.length)
    (hread : images (cur_img_path s) = some img) :
    save_outgoing images s = .ok (aset s.fs (cur_img_path s)
      (.tree (annotation_root img s.curLabels s.curBboxes))) := by
  unfold save_outgoing generate_pascvalvoc_annotation_from_image_file
    generate_pascalvoc_annotation_from_image
  rw [if_pos ⟨himg, hb, hch⟩, if_pos hlen]
  simp only [hread]
  rw [if_neg (by simp)]

theorem remove_skip_no_index (s : AnnotatorState) (hidx : s.indexOpt = none) :
    _remove_annotation_file_when_empty s = .ok s.fs := by
  unfold _remove_annotation_file_when_empty
  rw [if_pos hidx]

theorem remove_skip (s : AnnotatorState) (i : Nat) (hidx : s.indexOpt = some i)
    (hb : s.curBboxes ≠ []) (hl : s.curLabels ≠ []) :
    _remove_annotation_file_when_empty s = .ok s.fs := by
  unfold _remove_annotation_file_when_empty
  rw [if_neg (by simp [hidx]), if_neg]
  rintro (h | h)
  · exact hb h
  · exact hl h.1

theorem remove_deletes (s : AnnotatorState) (i : Nat) (hidx : s.indexOpt = some i)
    (hb : s.curBboxes = [])
    (hfile : (alookup s.fs (cur_img_path s)).isSome = true) :
    _remove_annotation_file_when_empty s = .ok (aerase s.fs (cur_img_path s)) := by
  unfold _remove_annotation_file_when_empty
  rw [if_neg (by simp [hidx]), if_pos (Or.inl hb), if_pos hfile]

theorem remove_crashes (s : AnnotatorState) (i : Nat) (hidx : s.indexOpt = some i)
    (hb : s.curBboxes = [])
    (hfile : (alookup s.fs (cur_img_path s)).isSome = false) :
    _remove_annotation_file_when_empty s =
      .error (.fileNotFound (cur_img_path s)) := by
  unfold _remove_annotation_file_when_empty
  rw [if_neg (by simp [hidx]), if_pos (Or.inl hb), if_neg (by simp [hfile])]

theorem index_set_eq (images : String → Option Image) (s : AnnotatorState) (value : Int)
    (img : Image) (fs1 fs2 : FS) (h1 : save_outgoing images s = .ok fs1)
    (h2 : _remove_annotation_file_when_empty { s with fs := fs1 } = .ok fs2)
    (h3 : images (new_path s value) = some img) :
    index_set images s value = .ok (landing_state s value img fs2) := by
  unfold index_set
  simp only [h1, h2, h3]

theorem index_set_inv (images : String → Option Image) (s : AnnotatorState) (value : Int)
    (t : AnnotatorState) (h : index_set images s value = .ok t) :
    ∃ fs1 fs2 img, save_outgoing images s = .ok fs1 ∧
      _remove_annotation_file_when_empty { s with fs := fs1 } = .ok fs2 ∧
      images (new_path s value) = some img ∧
      t = landing_state s value img fs2 := by
  unfold index_set at h
  cases h1 : save_outgoing images s with
  | error e => simp [h1] at h
  | ok fs1 =>
    cases h2 : _remove_annotation_file_when_empty { s with fs := fs1 } with
    | error e => simp [h1, h2] at h
    | ok fs2 =>
      cases h3 : images (new_path s value) with
      | none => simp [h1, h2, h3] at h
      | some img =>
        simp only [h1, h2, h3, Except.ok.injEq] at h
        exact ⟨fs1, fs2, img, rfl, h2, rfl, h.symm⟩

/-! ## C1: the empty-record reconciliation crashes when no file exists -/

/-- C1 (code bug): pressing Next while the current image has an empty in-memory
record and no annotation file on disk makes `_remove_annotation_file_when_empty`
call `os.remove` on a non-existent path — the misparenthesized condition
`not bboxes or not labels and isfile(path)` skips the existence check — so the
transition aborts with `FileNotFoundError` instead of completing and
re-establishing the file-existence invariant. -/
theorem next_on_empty_record_without_file_raises :
    _next_image sampleImages emptyRecordState =
      .error (.fileNotFound "F/a.jpg") := rfl

/-! ## C5: Undo -/

/-- C5: Undo is a no-op while a draw is in progress, a no-op (no error, no state
change) when the current image has no committed boxes, and otherwise removes
exactly the most recently committed (box, label) pair — from the bound sequences
and, through aliasing, from the record map — and marks the image dirty. -/
theorem undo_contract (s : AnnotatorState)
    (hlen : s.curBboxes.length = s.curLabels.length) :
    (s.bbboxInProgress ≠ none → _undo s = s) ∧
    (s.curBboxes = [] → _undo s = s) ∧
    (s.bbboxInProgress = none → s.curBboxes ≠ [] →
      _undo s = setCurRecord { s with changed := true }
        s.curBboxes.dropLast s.curLabels.dropLast) := by
  refine ⟨?_, ?_, ?_⟩
  · intro h
    unfold _undo
    rw [if_neg]
    intro hc
    exact h hc.1
  · intro h
    unfold _undo
    rw [if_neg]
    intro hc
    exact hc.2.1 h
  · intro h1 h2
    have h3 : s.curLabels ≠ [] := by
      intro hl
      apply h2
      have hl0 : s.curBboxes.length = 0 := by rw [hlen, hl]; rfl
      exact List.length_eq_zero.mp hl0
    unfold _undo
    rw [if_pos ⟨h1, h2, h3⟩]

/-- Witness for C5 on a session with two committed boxes. -/
theorem undo_contract_witness :
    undoSampleState.curBboxes.length = undoSampleState.curLabels.length ∧
    undoSampleState.bbboxInProgress = none ∧ undoSampleState.curBboxes ≠ [] ∧
    _undo undoSampleState = setCurRecord { undoSampleState with changed := true }
      undoSampleState.curBboxes.dropLast undoSampleState.curLabels.dropLast :=
  ⟨rfl, rfl, by decide,
    (undo_contract undoSampleState rfl).2.2 rfl (by decide)⟩

/-! ## C4: index wraparound -/

theorem index_set_ok_fields (images : String → Option Image) (s : AnnotatorState)
    (value : Int) (t : AnnotatorState) (h : index_set images s value = .ok t) :
    t.indexOpt = some (new_index s value) ∧ t.imgPaths = s.imgPaths := by
  obtain ⟨fs1, fs2, img, -, -, -, ht⟩ := index_set_inv images s value t h
  subst ht
  exact ⟨rfl, rfl⟩

theorem iterate_next_index (images : String → Option Image) (N : Nat) (hN : 0 < N)
    (k : Nat) :
    ∀ (s t : AnnotatorState) (i : Nat), s.imgPaths.length = N →
      s.indexOpt = some i → i < N → iterate_next images k s = .ok t →
      t.indexOpt = some ((i + k) % N) ∧ t.imgPaths.length = N := by
  induction k with
  | zero =>
    intro s t i hlen hidx hi h
    unfold iterate_next at h
    simp only [Except.ok.injEq] at h
    subst h
    rw [Nat.add_zero, Nat.mod_eq_of_lt hi]
    exact ⟨hidx, hlen⟩
  | succ n ih =>
    intro s t i hlen hidx hi h
    unfold iterate_next at h
    cases hstep : _next_image images s with
    | error e => simp [hstep] at h
    | ok s2 =>
      simp only [hstep] at h
      unfold _next_image at hstep
      have hfields := index_set_ok_fields images s _ s2 hstep
      rw [hidx] at hfields
      simp only [Option.getD_some] at hfields
      have hidx2 : s2.indexOpt = some ((i + 1) % N) := by
        rw [hfields.1]
        unfold new_index
        rw [hlen, add_one_mod_toNat]
      have hlen2 : s2.imgPaths.length = N := by rw [hfields.2, hlen]
      obtain ⟨ht, hl⟩ := ih s2 t ((i + 1) % N) hlen2 hidx2 (Nat.mod_lt _ hN) h
      refine ⟨?_, hl⟩
      rw [ht, Nat.mod_add_mod, show i + 1 + n = i + (n + 1) from by omega]

/-- C4: over N images, invoking Next N times from index 0 (each transition
completing normally) returns the index to 0, and invoking Previous from index 0
(completing normally) lands on index N-1. -/
theorem index_wraparound (images : String → Option Image) (s t t' : AnnotatorState)
    (N : Nat) (hN : 0 < N) (hlen : s.imgPaths.length = N)
    (hidx : s.indexOpt = some 0) :
    (iterate_next images N s = .ok t → t.indexOpt = some 0) ∧
    (_prev_image images s = .ok t' → t'.indexOpt = some (N - 1)) := by
  constructor
  · intro h
    obtain ⟨ht, -⟩ := iterate_next_index images N hN N s t 0 hlen hidx hN h
    rw [ht, Nat.zero_add, Nat.mod_self]
  · intro h
    unfold _prev_image at h
    obtain ⟨ht, -⟩ := index_set_ok_fields images s _ t' h
    rw [hidx] at ht
    simp only [Option.getD_some] at ht
    rw [ht]
    unfold new_index
    rw [hlen]
    have hc : (((0 : Nat) : Int) - 1) = (-1 : Int) := by norm_num
    rw [hc, neg_one_mod_toNat N hN]

/-- Witness for C4 on a clean two-image session. -/
theorem index_wraparound_witness :
    ∃ t t', iterate_next sampleImages 2 wrapSampleState = .ok t ∧
      _prev_image sampleImages wrapSampleState = .ok t' ∧
      t.indexOpt = some 0 ∧ t'.indexOpt = some (2 - 1) := by
  obtain ⟨t, ht⟩ : ∃ t, iterate_next sampleImages 2 wrapSampleState = .ok t :=
    ⟨_, rfl⟩
  obtain ⟨t', ht'⟩ : ∃ t', _prev_image sampleImages wrapSampleState = .ok t' :=
    ⟨_, rfl⟩
  have h := index_wraparound sampleImages wrapSampleState t t' 2 (by omega) rfl rfl
  exact ⟨t, t', ht, ht', h.1 ht, h.2 ht'⟩

/-! ## C8: construction -/

theorem load_saved_ok (fs : FS)
    (h : ∀ e ∈ fs, ∃ r, _parse_pascalvoc_annoation e.2 = .ok r) :
    ∃ m, load_saved_annotations fs = .ok m := by
  induction fs with
  | nil => exact ⟨[], rfl⟩
  | cons hd tl ih =>
    obtain ⟨p, f⟩ := hd
    obtain ⟨r, hr⟩ := h (p, f) (List.mem_cons_self _ _)
    obtain ⟨m, hm⟩ := ih (fun e he => h e (List.mem_cons_of_mem _ he))
    exact ⟨(p, r) :: m, by simp only [load_saved_annotations, hr, hm]⟩

theorem index_set_fresh (images : String → Option Image) (s : AnnotatorState)
    (value : Int) (img : Image) (himg : s.curImg = none) (hidx : s.indexOpt = none)
    (hread : images (new_path s value) = some img) :
    index_set images s value = .ok (landing_state s value img s.fs) := by
  apply index_set_eq
  · exact save_outgoing_skip images s (Or.inl himg)
  · exact remove_skip_no_index _ (by simp [hidx])
  · exact hread

/-- The index the setter computes for the assignment `self.index = 0`
performed at the end of `__init__`. -/
theorem new_path_zero (s : AnnotatorState) :
    new_path s 0 = s.imgPaths.getD 0 "" := by
  unfold new_path new_index
  rw [Int.zero_emod]
  rfl

/-- C8 (amended): construction fails with the not-a-directory error exactly when
the folder is not a directory; fails with the no-images error exactly when the
folder is a directory but no listed filename contains the image extension as a
substring (the code tests substring containment, not extension matching); and on
any other input it succeeds provided every stored annotation file parses and the
first selected image decodes — otherwise `__init__` aborts at the parse or at
the `assert self._cur_img is not None` after `cv2.imread` fails. -/
theorem init_contract (images : String → Option Image) (isDir : Bool) (folder : String)
    (listing : List String) (fs : FS) (objLabel : String) :
    (annotator_init images isDir folder listing fs objLabel =
        .error .notADirectory ↔ isDir = false) ∧
    (annotator_init images isDir folder listing fs objLabel =
        .error .noImagesFound ↔
      (isDir = true ∧ listing.filter
        (fun f => decide (PASCAL_VOC_IMAGE_EXTENSION.data <:+: f.data)) = [])) ∧
    ((∀ e ∈ fs, ∃ r, _parse_pascalvoc_annoation e.2 = .ok r) → isDir = true →
      listing.filter
        (fun f => decide (PASCAL_VOC_IMAGE_EXTENSION.data <:+: f.data)) ≠ [] →
      (images (((listing.filter
          (fun f => decide (PASCAL_VOC_IMAGE_EXTENSION.data <:+: f.data))).map
          (fun f => folder ++ "/" ++ f)).getD 0 "")).isSome = true →
      ∃ s, annotator_init images isDir folder listing fs objLabel = .ok s) := by
  cases isDir with
  | false =>
    refine ⟨by simp [annotator_init], by simp [annotator_init], ?_⟩
    intro _ hdir
    exact absurd hdir (by simp)
  | true =>
    by_cases hflt : listing.filter
        (fun f => decide (PASCAL_VOC_IMAGE_EXTENSION.data <:+: f.data)) = []
    · refine ⟨?_, ?_, ?_⟩
      · simp [annotator_init, List.map_eq_nil_iff, hflt]
      · simp [annotator_init, List.map_eq_nil_iff, hflt]
      · intro _ _ hne
        exact absurd hflt hne
    · cases hload : load_saved_annotations fs with
      | error e =>
        have hres : annotator_init images true folder listing fs objLabel =
            .error (.loadFailed e) := by
          simp [annotator_init, List.map_eq_nil_iff, hflt, hload]
        refine ⟨by rw [hres]; simp, by rw [hres]; simp [hflt], ?_⟩
        intro hall _ _ _
        obtain ⟨m, hm⟩ := load_saved_ok fs hall
        rw [hload] at hm
        exact absurd hm (by simp)
      | ok ann =>
        cases hset : index_set images
            { imgPaths := (listing.filter
                (fun f => decide (PASCAL_VOC_IMAGE_EXTENSION.data <:+: f.data))).map
                (fun f => folder ++ "/" ++ f),
              objLabel := objLabel, curImg := none, curBboxes := [],
              curLabels := [], changed := false, bbboxInProgress := none,
              annotations := ann, indexOpt := none, fs := fs } 0 with
        | error e =>
          have hres : annotator_init images true folder listing fs objLabel =
              .error (.stepFailed e) := by
            simp [annotator_init, List.map_eq_nil_iff, hflt, hload, hset]
          refine ⟨by rw [hres]; simp, by rw [hres]; simp [hflt], ?_⟩
          intro _ _ _ hdec
          obtain ⟨img, himg⟩ := Option.isSome_iff_exists.mp hdec
          have hfresh := index_set_fresh images
            { imgPaths := (listing.filter
                (fun f => decide (PASCAL_VOC_IMAGE_EXTENSION.data <:+: f.data))).map
                (fun f => folder ++ "/" ++ f),
              objLabel := objLabel, curImg := none, curBboxes := [],
              curLabels := [], changed := false, bbboxInProgress := none,
              annotations := ann, indexOpt := none, fs := fs } 0 img rfl rfl
            (by rw [new_path_zero]; exact himg)
          rw [hfresh] at hset
          exact absurd hset (by simp)
        | ok st =>
          have hres : annotator_init images true folder listing fs objLabel =
              .ok st := by
            simp [annotator_init, List.map_eq_nil_iff, hflt, hload, hset]
          refine ⟨by rw [hres]; simp, by rw [hres]; simp [hflt], ?_⟩
          intro _ _ _ _
          exact ⟨st, hres⟩

/-- C8 counterexample, refuting the original claim in its three failure modes:
(1) a directory whose only file is named "photo.jpgx" has no file with the `.jpg`
extension (no name ends in ".jpg"), yet construction succeeds, because the code
tests substring containment rather than the extension; (2) when the first
selected image cannot be decoded, construction fails (at the
`assert self._cur_img is not None` after `cv2.imread`) although the folder is a
directory with a listed ".jpg" file; (3) when a stored annotation file is
malformed, construction likewise fails instead of succeeding. -/
theorem init_accepts_substring_match :
    ((∃ s, annotator_init sampleImages true "F" ["photo.jpgx"] [] "lbl" = .ok s) ∧
      ∀ f ∈ ["photo.jpgx"], ¬ (PASCAL_VOC_IMAGE_EXTENSION.data <:+ f.data)) ∧
    annotator_init (fun _ => none) true "F" ["a.jpg"] [] "lbl" =
      .error (.stepFailed (.imageReadFailed "F/a.jpg")) ∧
    annotator_init sampleImages true "F" ["a.jpg"]
      [("F/a.jpg", AnnFile.malformed)] "lbl" =
        .error (.loadFailed .malformedFile) := by
  refine ⟨⟨⟨_, rfl⟩, ?_⟩, rfl, rfl⟩
  intro f hf
  simp only [List.mem_singleton] at hf
  subst hf
  decide

/-- Witness for C8's amended success branch at a concrete folder. -/
theorem init_contract_witness :
    (∀ e ∈ ([] : FS), ∃ r, _parse_pascalvoc_annoation e.2 = .ok r) ∧
    ["a.jpg"].filter
      (fun f => decide (PASCAL_VOC_IMAGE_EXTENSION.data <:+: f.data)) ≠ [] ∧
    (sampleImages (((["a.jpg"].filter
        (fun f => decide (PASCAL_VOC_IMAGE_EXTENSION.data <:+: f.data))).map
        (fun f => "F" ++ "/" ++ f)).getD 0 "")).isSome = true ∧
    ∃ s, annotator_init sampleImages true "F" ["a.jpg"] [] "r" = .ok s := by
  refine ⟨by simp, by decide, by decide, ?_⟩
  exact (init_contract sampleImages true "F" ["a.jpg"] [] "r").2.2
    (by simp) rfl (by decide) (by decide)

/-! ## C9: length invariant -/

theorem parseObjects_lengths (objs : List XmlElem) :
    ∀ (bs : List BBox) (ls : List String), parseObjects objs = .ok (bs, ls) →
      bs.length = ls.length := by
  induction objs with
  | nil =>
    intro bs ls h
    simp only [parseObjects, Except.ok.injEq, Prod.mk.injEq] at h
    rw [← h.1, ← h.2]
    rfl
  | cons o os ih =>
    intro bs ls h
    cases hp : parseObject o with
    | error e => simp [parseObjects, hp] at h
    | ok hd =>
      cases hr : parseObjects os with
      | error e => simp [parseObjects, hp, hr] at h
      | ok pr =>
        obtain ⟨bs2, ls2⟩ := pr
        simp only [parseObjects, hp, hr, Except.ok.injEq, Prod.mk.injEq] at h
        rw [← h.1, ← h.2]
        simp only [List.length_cons]
        rw [ih bs2 ls2 hr]

theorem parse_lengths (f : AnnFile) (bs : List BBox) (ls : List String)
    (h : _parse_pascalvoc_annoation f = .ok (bs, ls)) : bs.length = ls.length := by
  cases f with
  | malformed => simp [_parse_pascalvoc_annoation] at h
  | tree root => exact parseObjects_lengths _ _ _ h

theorem load_saved_lengths (fs : FS) :
    ∀ m, load_saved_annotations fs = .ok m →
      ∀ e ∈ m, e.2.1.length = e.2.2.length := by
  induction fs with
  | nil =>
    intro m h e he
    simp only [load_saved_annotations, Except.ok.injEq] at h
    rw [← h] at he
    simp at he
  | cons hd tl ih =>
    intro m h e he
    obtain ⟨p, f⟩ := hd
    cases hp : _parse_pascalvoc_annoation f with
    | error e2 => simp [load_saved_annotations, hp] at h
    | ok r =>
      cases hl : load_saved_annotations tl with
      | error e2 => simp [load_saved_annotations, hp, hl] at h
      | ok m2 =>
        simp only [load_saved_annotations, hp, hl, Except.ok.injEq] at h
        rw [← h] at he
        rcases List.mem_cons.mp he with h2 | h2
        · subst h2
          exact parse_lengths f r.1 r.2 hp
        · exact ih m2 hl e h2

theorem len_inv_landing (s : AnnotatorState) (value : Int) (img : Image) (fs2 : FS)
    (hinv : ∀ e ∈ s.annotations, e.2.1.length = e.2.2.length) :
    len_inv (landing_state s value img fs2) := by
  constructor
  · show (new_record s value).1.length = (new_record s value).2.length
    unfold new_record new_annotations
    by_cases hmem : (alookup s.annotations (new_path s value)).isSome
    · rw [if_pos hmem]
      cases hl : alookup s.annotations (new_path s value) with
      | none => rw [hl] at hmem; simp at hmem
      | some r =>
        simp only [Option.getD_some]
        exact hinv (new_path s value, r) (alookup_mem _ _ _ hl)
    · rw [if_neg hmem, alookup_aset_self]
      rfl
  · intro e he
    have he2 : e ∈ new_annotations s value := he
    unfold new_annotations at he2
    by_cases hmem : (alookup s.annotations (new_path s value)).isSome
    · rw [if_pos hmem] at he2
      exact hinv e he2
    · rw [if_neg hmem] at he2
      rcases mem_aset _ _ _ _ he2 with h2 | h2
      · exact hinv e h2
      · subst h2
        rfl

theorem len_inv_index_set (images : String → Option Image) (s : AnnotatorState)
    (value : Int) (t : AnnotatorState) (hinv : len_inv s)
    (h : index_set images s value = .ok t) : len_inv t := by
  obtain ⟨fs1, fs2, img, -, -, -, ht⟩ := index_set_inv images s value t h
  subst ht
  exact len_inv_landing s value img fs2 hinv.2

theorem len_inv_mouse (s : AnnotatorState) (e : MouseEvent) (hinv : len_inv s) :
    len_inv (_mouse_callback s e) := by
  cases e with
  | lbuttondown x y => exact ⟨hinv.1, hinv.2⟩
  | mousemove x y =>
    cases hbp : s.bbboxInProgress with
    | none =>
      simp only [_mouse_callback, hbp]
      exact hinv
    | some p =>
      obtain ⟨a, b, c, d⟩ := p
      simp only [_mouse_callback, hbp]
      exact ⟨hinv.1, hinv.2⟩
  | lbuttonup x y =>
    cases hbp : s.bbboxInProgress with
    | none =>
      simp only [_mouse_callback, hbp]
      exact hinv
    | some bb =>
      simp only [_mouse_callback, hbp]
      constructor
      · show (s.curBboxes ++ [bb]).length = (s.curLabels ++ [s.objLabel]).length
        simp [hinv.1]
      · intro e he
        rcases mem_aset _ _ _ _ he with h2 | h2
        · exact hinv.2 e h2
        · subst h2
          show (s.curBboxes ++ [bb]).length = (s.curLabels ++ [s.objLabel]).length
          simp [hinv.1]

theorem len_inv_undo (s : AnnotatorState) (hinv : len_inv s) : len_inv (_undo s) := by
  unfold _undo
  by_cases hc : s.bbboxInProgress = none ∧ s.curBboxes ≠ [] ∧ s.curLabels ≠ []
  · rw [if_pos hc]
    constructor
    · show s.curBboxes.dropLast.length = s.curLabels.dropLast.length
      simp [hinv.1]
    · intro e he
      rcases mem_aset _ _ _ _ he with h2 | h2
      · exact hinv.2 e h2
      · subst h2
        show s.curBboxes.dropLast.length = s.curLabels.dropLast.length
        simp [hinv.1]
  · rw [if_neg hc]
    exact hinv

theorem len_inv_clear (images : String → Option Image) (s t : AnnotatorState)
    (hinv : len_inv s) (h : _clear images s = .ok t) : len_inv t := by
  unfold _clear at h
  refine len_inv_index_set images
    { s with
      curImg := none, changed := true,
      annotations := aerase s.annotations (cur_img_path s) }
    (s.indexOpt.getD 0 : Nat) t ⟨hinv.1, ?_⟩ h
  intro e he
  exact hinv.2 e (mem_aerase s.annotations (cur_img_path s) e he)

theorem len_inv_step (images : String → Option Image) (s : AnnotatorState) (e : Event)
    (t : AnnotatorState) (hinv : len_inv s) (h : step images s e = .ok t) :
    len_inv t := by
  cases e with
  | mouse me =>
    simp only [step, Except.ok.injEq] at h
    subst h
    exact len_inv_mouse s me hinv
  | key c =>
    simp only [step] at h
    unfold update_key at h
    by_cases h1 : c = QUIT_KEY
    · rw [if_pos h1] at h
      simp only [Except.ok.injEq] at h
      subst h
      exact hinv
    · rw [if_neg h1] at h
      by_cases h2 : c = NEXT_KEY
      · rw [if_pos h2] at h
        unfold _next_image at h
        exact len_inv_index_set images s _ t hinv h
      · rw [if_neg h2] at h
        by_cases h3 : c = PREV_KEY
        · rw [if_pos h3] at h
          unfold _prev_image at h
          exact len_inv_index_set images s _ t hinv h
        · rw [if_neg h3] at h
          by_cases h4 : c = CLEAR_KEY
          · rw [if_pos h4] at h
            exact len_inv_clear images s t hinv h
          · rw [if_neg h4] at h
            by_cases h5 : c = UNDO_KEY
            · rw [if_pos h5] at h
              simp only [Except.ok.injEq] at h
              subst h
              exact len_inv_undo s hinv
            · rw [if_neg h5] at h
              simp only [Except.ok.injEq] at h
              subst h
              exact hinv

theorem len_inv_run (images : String → Option Image) (events : List Event) :
    ∀ s t, len_inv s → runEvents images s events = .ok t → len_inv t := by
  induction events with
  | nil =>
    intro s t hinv h
    simp only [runEvents, Except.ok.injEq] at h
    subst h
    exact hinv
  | cons e es ih =>
    intro s t hinv h
    unfold runEvents at h
    cases hstep : step images s e with
    | error err => simp [hstep] at h
    | ok s2 =>
      simp only [hstep] at h
      exact ih s2 t (len_inv_step images s e s2 hinv hstep) h

theorem len_inv_init (images : String → Option Image) (isDir : Bool) (folder : String)
    (listing : List String) (fs : FS) (objLabel : String) (s0 : AnnotatorState)
    (h : annotator_init images isDir folder listing fs objLabel = .ok s0) :
    len_inv s0 := by
  cases isDir with
  | false => simp [annotator_init] at h
  | true =>
    by_cases hflt : listing.filter
        (fun f => decide (PASCAL_VOC_IMAGE_EXTENSION.data <:+: f.data)) = []
    · simp [annotator_init, List.map_eq_nil_iff, hflt] at h
    · cases hload : load_saved_annotations fs with
      | error e => simp [annotator_init, List.map_eq_nil_iff, hflt, hload] at h
      | ok ann =>
        cases hset : index_set images
            { imgPaths := (listing.filter
                (fun f => decide (PASCAL_VOC_IMAGE_EXTENSION.data <:+: f.data))).map
                (fun f => folder ++ "/" ++ f),
              objLabel := objLabel, curImg := none, curBboxes := [],
              curLabels := [], changed := false, bbboxInProgress := none,
              annotations := ann, indexOpt := none, fs := fs } 0 with
        | error e =>
          simp [annotator_init, List.map_eq_nil_iff, hflt, hload, hset] at h
        | ok st =>
          have hres : annotator_init images true folder listing fs objLabel =
              .ok st := by
            simp [annotator_init, List.map_eq_nil_iff, hflt, hload, hset]
          rw [hres] at h
          simp only [Except.ok.injEq] at h
          subst h
          exact len_inv_index_set images _ 0 st
            ⟨rfl, load_saved_lengths fs ann hload⟩ hset

/-- C9: in every reachable session state — construction followed by any sequence
of mouse and key events whose transitions complete normally — the current box and
label sequences have equal length, as does every record in the annotation map. -/
theorem reachable_length_invariant (images : String → Option Image) (isDir : Bool)
    (folder : String) (listing : List String) (fs : FS) (objLabel : String)
    (events : List Event) (s0 s : AnnotatorState)
    (hinit : annotator_init images isDir folder listing fs objLabel = .ok s0)
    (hrun : runEvents images s0 events = .ok s) : len_inv s :=
  len_inv_run images events s0 s
    (len_inv_init images isDir folder listing fs objLabel s0 hinit) hrun

/-- Witness for C9: a run that draws one box, commits it and navigates. -/
theorem reachable_length_invariant_witness :
    ∃ s0 s, annotator_init sampleImages true "F" ["a.jpg", "b.jpg"] [] "r" =
        .ok s0 ∧
      runEvents sampleImages s0 sampleEvents = .ok s ∧ len_inv s :=
  ⟨_, _, rfl, rfl, reachable_length_invariant sampleImages true "F"
    ["a.jpg", "b.jpg"] [] "r" sampleEvents _ _ rfl rfl⟩

/-! ## C7: clear-then-reload -/

theorem landing_indexOpt (s : AnnotatorState) (value : Int) (img : Image) (fs2 : FS) :
    (landing_state s value img fs2).indexOpt = some (new_index s value) := rfl

theorem landing_changed (s : AnnotatorState) (value : Int) (img : Image) (fs2 : FS) :
    (landing_state s value img fs2).changed = false := rfl

theorem landing_imgPaths (s : AnnotatorState) (value : Int) (img : Image) (fs2 : FS) :
    (landing_state s value img fs2).imgPaths = s.imgPaths := rfl

theorem landing_fs (s : AnnotatorState) (value : Int) (img : Image) (fs2 : FS) :
    (landing_state s value img fs2).fs = fs2 := rfl

theorem landing_curBboxes (s : AnnotatorState) (value : Int) (img : Image) (fs2 : FS) :
    (landing_state s value img fs2).curBboxes = (new_record s value).1 := rfl

theorem landing_curLabels (s : AnnotatorState) (value : Int) (img : Image) (fs2 : FS) :
    (landing_state s value img fs2).curLabels = (new_record s value).2 := rfl

theorem landing_annotations (s : AnnotatorState) (value : Int) (img : Image)
    (fs2 : FS) :
    (landing_state s value img fs2).annotations = new_annotations s value := rfl

theorem new_index_of_lt (s : AnnotatorState) (i : Nat) (h : i < s.imgPaths.length) :
    new_index s (i : Int) = i := by
  unfold new_index
  rw [natMod_cast, Nat.mod_eq_of_lt h]

theorem new_annotations_none (s : AnnotatorState) (value : Int)
    (h : alookup s.annotations (new_path s value) = none) :
    new_annotations s value = aset s.annotations (new_path s value) ([], []) := by
  unfold new_annotations
  rw [if_neg (by simp [h])]

theorem new_annotations_some (s : AnnotatorState) (value : Int)
    (r : List BBox × List String)
    (h : alookup s.annotations (new_path s value) = some r) :
    new_annotations s value = s.annotations := by
  unfold new_annotations
  rw [if_pos (by simp [h])]

theorem new_record_none (s : AnnotatorState) (value : Int)
    (h : alookup s.annotations (new_path s value) = none) :
    new_record s value = ([], []) := by
  unfold new_record
  rw [new_annotations_none s value h, alookup_aset_self]
  rfl

theorem new_record_some (s : AnnotatorState) (value : Int)
    (r : List BBox × List String)
    (h : alookup s.annotations (new_path s value) = some r) :
    new_record s value = r := by
  unfold new_record
  rw [new_annotations_some s value r h, h]
  rfl

theorem index_set_error_of_remove (images : String → Option Image) (s : AnnotatorState)
    (value : Int) (fs1 : FS) (e : StepError)
    (h1 : save_outgoing images s = .ok fs1)
    (h2 : _remove_annotation_file_when_empty { s with fs := fs1 } = .error e) :
    index_set images s value = .error e := by
  unfold index_set
  simp only [h1, h2]

/-- The incoming image fails to decode: the setter aborts at the
`assert self._cur_img is not None` (line 147). -/
theorem index_set_error_of_image (images : String → Option Image)
    (s : AnnotatorState) (value : Int) (fs1 fs2 : FS)
    (h1 : save_outgoing images s = .ok fs1)
    (h2 : _remove_annotation_file_when_empty { s with fs := fs1 } = .ok fs2)
    (h3 : images (new_path s value) = none) :
    index_set images s value = .error (.imageReadFailed (new_path s value)) := by
  unfold index_set
  simp only [h1, h2, h3]

/-- A Next transition away from an image whose record is empty: it deletes the
image's annotation file (it must exist, see C1) and performs no write. -/
theorem next_of_empty (images : String → Option Image) (s : AnnotatorState) (i : Nat)
    (img : Image) (hidx : s.indexOpt = some i) (hb : s.curBboxes = [])
    (hfile : (alookup s.fs (cur_img_path s)).isSome = true)
    (hread : images (new_path s ((i : Int) + 1)) = some img) :
    _next_image images s = .ok (landing_state s ((i : Int) + 1) img
      (aerase s.fs (cur_img_path s))) := by
  unfold _next_image
  rw [hidx]
  simp only [Option.getD_some]
  apply index_set_eq
  · exact save_outgoing_skip images s (Or.inr (Or.inl hb))
  · show _remove_annotation_file_when_empty s = _
    exact remove_deletes s i hidx hb hfile
  · exact hread

/-- Any transition out of a clean (not dirty) state decodes the incoming image
and either leaves the directory unchanged or deletes the outgoing image's
annotation file. -/
theorem index_set_fs_cases (images : String → Option Image) (s : AnnotatorState)
    (value : Int) (t : AnnotatorState) (hch : s.changed = false)
    (h : index_set images s value = .ok t) :
    ∃ img, images (new_path s value) = some img ∧
      (t = landing_state s value img s.fs ∨
       t = landing_state s value img (aerase s.fs (cur_img_path s))) := by
  obtain ⟨fs1, fs2, img, h1, h2, h3, ht⟩ := index_set_inv images s value t h
  have hskip := save_outgoing_skip images s (Or.inr (Or.inr hch))
  rw [hskip] at h1
  have hfs1 : fs1 = s.fs := by
    simp only [Except.ok.injEq] at h1
    exact h1.symm
  subst hfs1
  have h2s : _remove_annotation_file_when_empty s = .ok fs2 := h2
  have hcase : fs2 = s.fs ∨ fs2 = aerase s.fs (cur_img_path s) := by
    unfold _remove_annotation_file_when_empty at h2s
    by_cases hio : s.indexOpt = none
    · rw [if_pos hio] at h2s
      simp only [Except.ok.injEq] at h2s
      exact Or.inl h2s.symm
    · rw [if_neg hio] at h2s
      by_cases hc : s.curBboxes = [] ∨
          (s.curLabels = [] ∧ (alookup s.fs (cur_img_path s)).isSome)
      · rw [if_pos hc] at h2s
        by_cases hf : (alookup s.fs (cur_img_path s)).isSome = true
        · rw [if_pos hf] at h2s
          simp only [Except.ok.injEq] at h2s
          exact Or.inr h2s.symm
        · rw [if_neg hf] at h2s
          simp at h2s
      · rw [if_neg hc] at h2s
        simp only [Except.ok.injEq] at h2s
        exact Or.inl h2s.symm
  rcases hcase with hcase | hcase
  · subst hcase
    exact ⟨img, h3, Or.inl ht⟩
  · subst hcase
    exact ⟨img, h3, Or.inr ht⟩

theorem getD_ne_of_nodup (l : List String) (i j : Nat) (hi : i < l.length)
    (hj : j < l.length) (hij : i ≠ j) (h : l.Nodup) :
    l.getD i "" ≠ l.getD j "" := by
  rw [List.getD_eq_get l "" hi, List.getD_eq_get l "" hj]
  intro heq
  have := (List.Nodup.get_inj_iff h).mp heq
  exact hij (by simpa using congrArg Fin.val this)

/-- C7 (amended): on an image with at least one committed box, Clear empties the
record but — contrary to the claim — leaves the dirty flag cleared, because the
index re-assignment embedded in Clear resets it.  The empty state is nonetheless
reconciled by the next navigation, which deletes the image's annotation file
(when one exists — without one the transition aborts, see C1): whenever Clear,
Next and Previous complete normally, the image is shown again with zero boxes and
no annotation file on disk. -/
theorem clear_then_reload (images : String → Option Image) (s sA sB sC : AnnotatorState)
    (i N : Nat) (hN : s.imgPaths.length = N) (hN2 : 2 ≤ N)
    (hidx : s.indexOpt = some i) (hi : i < N) (hnodup : s.imgPaths.Nodup)
    (hfsnodup : (s.fs.map Prod.fst).Nodup)
    (hannodup : (s.annotations.map Prod.fst).Nodup)
    (hboxes : s.curBboxes ≠ []) (hlabels : s.curLabels ≠ [])
    (hclear : _clear images s = .ok sA) (hnext : _next_image images sA = .ok sB)
    (hprev : _prev_image images sB = .ok sC) :
    sA.changed = false ∧ sC.indexOpt = some i ∧ sC.curBboxes = [] ∧
    sC.curLabels = [] ∧ alookup sC.fs (s.imgPaths.getD i "") = none := by
  have hpath : cur_img_path s = s.imgPaths.getD i "" := by
    unfold cur_img_path
    rw [hidx]
    rfl
  have hval : ((s.indexOpt.getD 0 : Nat) : Int) = (i : Int) := by
    rw [hidx]
    rfl
  unfold _clear at hclear
  rw [hval] at hclear
  set s1 : AnnotatorState :=
    { s with
      curImg := none, changed := true,
      annotations := aerase s.annotations (cur_img_path s) } with hs1
  have hsave1 : save_outgoing images s1 = .ok s.fs :=
    save_outgoing_skip images s1 (Or.inl rfl)
  have hrem1 : _remove_annotation_file_when_empty { s1 with fs := s.fs } =
      .ok s.fs := by
    have heta : ({ s1 with fs := s.fs } : AnnotatorState) = s1 := rfl
    rw [heta]
    exact remove_skip s1 i hidx hboxes hlabels
  obtain ⟨imgA, hreadA⟩ : ∃ imgA, images (new_path s1 (i : Int)) = some imgA := by
    obtain ⟨f1, f2, imgA, -, -, h3, -⟩ := index_set_inv images s1 (i : Int) sA hclear
    exact ⟨imgA, h3⟩
  have hA : index_set images s1 (i : Int) =
      .ok (landing_state s1 (i : Int) imgA s.fs) :=
    index_set_eq images s1 (i : Int) imgA s.fs s.fs hsave1 hrem1 hreadA
  rw [hA] at hclear
  simp only [Except.ok.injEq] at hclear
  have hA_changed : sA.changed = false := by rw [← hclear]; rfl
  have hA_imgPaths : sA.imgPaths = s.imgPaths := by rw [← hclear]; rfl
  have hni : new_index s1 (i : Int) = i :=
    new_index_of_lt s1 i (by show i < s.imgPaths.length; omega)
  have hA_idx : sA.indexOpt = some i := by
    rw [← hclear, landing_indexOpt, hni]
  have hnp : new_path s1 (i : Int) = s.imgPaths.getD i "" := by
    unfold new_path
    rw [hni]
  have hlookA : alookup s1.annotations (new_path s1 (i : Int)) = none := by
    rw [hnp, ← hpath]
    exact alookup_aerase_self s.annotations (cur_img_path s) hannodup
  have hrecA : new_record s1 (i : Int) = ([], []) := new_record_none s1 _ hlookA
  have hA_boxes : sA.curBboxes = [] := by rw [← hclear, landing_curBboxes, hrecA]
  have hA_ann : sA.annotations = aset s1.annotations (new_path s1 (i : Int)) ([], []) := by
    rw [← hclear, landing_annotations, new_annotations_none s1 _ hlookA]
  have hA_fs : sA.fs = s.fs := by rw [← hclear]; rfl
  have hpathA : cur_img_path sA = s.imgPaths.getD i "" := by
    unfold cur_img_path
    rw [hA_idx, hA_imgPaths]
    rfl
  cases hfile : (alookup sA.fs (cur_img_path sA)).isSome with
  | false =>
    exfalso
    unfold _next_image at hnext
    rw [hA_idx] at hnext
    simp only [Option.getD_some] at hnext
    have hsave2 : save_outgoing images sA = .ok sA.fs :=
      save_outgoing_skip images sA (Or.inr (Or.inl hA_boxes))
    have hrem2 : _remove_annotation_file_when_empty { sA with fs := sA.fs } =
        .error (.fileNotFound (cur_img_path sA)) := by
      have heta : ({ sA with fs := sA.fs } : AnnotatorState) = sA := rfl
      rw [heta]
      exact remove_crashes sA i hA_idx hA_boxes hfile
    rw [index_set_error_of_remove images sA _ sA.fs _ hsave2 hrem2] at hnext
    simp at hnext
  | true =>
    obtain ⟨imgB, hreadB⟩ : ∃ imgB, images (new_path sA ((i : Int) + 1)) = some imgB := by
      have h0 : _next_image images sA = index_set images sA ((i : Int) + 1) := by
        unfold _next_image
        rw [hA_idx]
        simp only [Option.getD_some]
      rw [h0] at hnext
      obtain ⟨f1, f2, imgB, -, -, h3, -⟩ :=
        index_set_inv images sA ((i : Int) + 1) sB hnext
      exact ⟨imgB, h3⟩
    have hnext2 := next_of_empty images sA i imgB hA_idx hA_boxes hfile hreadB
    rw [hnext2] at hnext
    simp only [Except.ok.injEq] at hnext
    have hB_changed : sB.changed = false := by rw [← hnext]; rfl
    have hB_imgPaths : sB.imgPaths = s.imgPaths := by
      rw [← hnext, landing_imgPaths, hA_imgPaths]
    have hB_fs : sB.fs = aerase s.fs (s.imgPaths.getD i "") := by
      rw [← hnext, landing_fs, hA_fs, hpathA]
    set j := new_index sA ((i : Int) + 1) with hj
    have hB_idx : sB.indexOpt = some j := by rw [← hnext, landing_indexOpt]
    have hjval : j = (i + 1) % N := by
      rw [hj]
      unfold new_index
      rw [hA_imgPaths, hN, add_one_mod_toNat]
    have hjlt : j < N := by
      rw [hjval]
      exact Nat.mod_lt _ (by omega)
    have hij : i ≠ j := by
      rw [hjval]
      rcases Nat.lt_or_ge (i + 1) N with hlt | hge
      · rw [Nat.mod_eq_of_lt hlt]
        omega
      · have hiN : i + 1 = N := by omega
        rw [hiN, Nat.mod_self]
        omega
    have hpathB : cur_img_path sB = s.imgPaths.getD j "" := by
      unfold cur_img_path
      rw [hB_idx, hB_imgPaths]
      rfl
    have hpij : s.imgPaths.getD j "" ≠ s.imgPaths.getD i "" :=
      getD_ne_of_nodup s.imgPaths j i (by omega) (by omega) (Ne.symm hij) hnodup
    have hpA : new_path sA ((i : Int) + 1) = s.imgPaths.getD j "" := by
      unfold new_path
      rw [hA_imgPaths, ← hj]
    have hlookB : alookup sB.annotations (s.imgPaths.getD i "") = some ([], []) := by
      rw [← hnext, landing_annotations]
      cases hlk : alookup sA.annotations (new_path sA ((i : Int) + 1)) with
      | none =>
        rw [new_annotations_none sA _ hlk]
        rw [alookup_aset_ne]
        · rw [hA_ann, hnp, alookup_aset_self]
        · rw [hpA]
          exact hpij
      | some r =>
        rw [new_annotations_some sA _ r hlk]
        rw [hA_ann, hnp, alookup_aset_self]
    unfold _prev_image at hprev
    rw [hB_idx] at hprev
    simp only [Option.getD_some] at hprev
    have hniB : new_index sB ((j : Int) - 1) = i := by
      unfold new_index
      rw [hB_imgPaths, hN]
      rcases Nat.lt_or_ge (i + 1) N with hlt | hge
      · have hjeq : j = i + 1 := by rw [hjval, Nat.mod_eq_of_lt hlt]
        rw [hjeq]
        have hc : ((i + 1 : Nat) : Int) - 1 = ((i : Nat) : Int) := by push_cast; ring
        rw [hc, natMod_cast, Nat.mod_eq_of_lt hi]
      · have hiN : i + 1 = N := by omega
        have hjeq : j = 0 := by rw [hjval, hiN, Nat.mod_self]
        rw [hjeq]
        have hc : ((0 : Nat) : Int) - 1 = (-1 : Int) := by norm_num
        rw [hc, neg_one_mod_toNat N (by omega)]
        omega
    have hnpB : new_path sB ((j : Int) - 1) = s.imgPaths.getD i "" := by
      unfold new_path
      rw [hniB, hB_imgPaths]
    have hrecB : new_record sB ((j : Int) - 1) = ([], []) :=
      new_record_some sB _ ([], []) (by rw [hnpB]; exact hlookB)
    have hnone : alookup sB.fs (s.imgPaths.getD i "") = none := by
      rw [hB_fs]
      exact alookup_aerase_self s.fs _ hfsnodup
    obtain ⟨imgC, fsC, hC, hfsC⟩ : ∃ imgC fsC,
        sC = landing_state sB ((j : Int) - 1) imgC fsC ∧
        alookup fsC (s.imgPaths.getD i "") = none := by
      obtain ⟨imgC, -, hcC⟩ := index_set_fs_cases images sB _ sC hB_changed hprev
      rcases hcC with hC | hC
      · exact ⟨imgC, sB.fs, hC, hnone⟩
      · refine ⟨imgC, _, hC, ?_⟩
        rw [hpathB, alookup_aerase_ne _ _ _ hpij]
        exact hnone
    refine ⟨hA_changed, ?_, ?_, ?_, ?_⟩
    · rw [hC, landing_indexOpt, hniB]
    · rw [hC, landing_curBboxes, hrecB]
    · rw [hC, landing_curLabels, hrecB]
    · rw [hC, landing_fs]
      exact hfsC

/-- C7 counterexample: Clear on an image with one committed box completes with
the dirty flag cleared, not set. -/
theorem clear_leaves_clean_counterexample :
    clearSampleState.curBboxes ≠ [] ∧
    ∃ sA, _clear sampleImages clearSampleState = .ok sA ∧ sA.changed = false := by
  exact ⟨by decide, ⟨_, rfl, rfl⟩⟩

/-- Witness for C7 on a concrete two-image session. -/
theorem clear_then_reload_witness :
    ∃ sA sB sC, _clear sampleImages clearSampleState = .ok sA ∧
      _next_image sampleImages sA = .ok sB ∧
      _prev_image sampleImages sB = .ok sC ∧
      sA.changed = false ∧ sC.indexOpt = some 0 ∧ sC.curBboxes = [] ∧
      sC.curLabels = [] ∧
      alookup sC.fs (clearSampleState.imgPaths.getD 0 "") = none := by
  have h := clear_then_reload sampleImages clearSampleState _ _ _ 0 2 rfl
    (by omega) rfl (by omega) (by decide) (by decide) (by decide) (by decide)
    (by decide) rfl rfl rfl
  exact ⟨_, _, _, rfl, rfl, rfl, h.1, h.2.1, h.2.2.1, h.2.2.2.1, h.2.2.2.2⟩

end PascalVOC
